import Mathlib

/-!
Verification development for the media-variant pipeline of the repository
(`app/media/router.py`).  The pipeline is shallowly embedded: the flat upload
directory becomes an association list from full path to file content, each
filesystem side effect (write, remove, rename) is threaded explicitly through a
state record that also keeps an event trace, and every fallible step is driven
by an explicit fault configuration so that each failure path of the Python code
corresponds to one valuation of the fault record.
-/

namespace MediaPipeline

/-! ## File contents and images

An image is abstracted by its PIL mode string and its pixel dimensions.
A file content is either the raw uploaded file (carrying the image it decodes
to plus its bytes) or the output of a save call of the resizing code
(carrying the in-memory image, the chosen encoder format and quality).
Byte-identical copying is content equality; re-encoding produces an
`encoded` value, never equal to the `file` value it came from.
-/

structure Img where
  mode : String
  width : Nat
  height : Nat
deriving DecidableEq, Repr

inductive Content where
  | file (img : Img) (data : List Nat)
  | encoded (img : Img) (fmt : String) (quality : Nat)
deriving DecidableEq, Repr

def contentImg : Content → Img
  | .file i _ => i
  | .encoded i _ _ => i

/-! ## The upload directory as an association list -/

abbrev FS := List (String × Content)

def fsLookup : FS → String → Option Content
  | [], _ => none
  | (m, c) :: rest, n => if m = n then some c else fsLookup rest n

/-- Removal of every entry under a name; `os.remove` on our flat model. -/
def fsErase : FS → String → FS
  | [], _ => []
  | (m, c) :: rest, n => if m = n then fsErase rest n else (m, c) :: fsErase rest n

/-- `open(path, "wb")` semantics: truncate any existing file, then write. -/
def fsWrite (fs : FS) (n : String) (c : Content) : FS :=
  (n, c) :: fsErase fs n

def fsExists (fs : FS) (n : String) : Bool :=
  (fsLookup fs n).isSome

inductive FsEvent where
  | write (path : String)
  | remove (path : String)
  | rename (src dst : String)
deriving DecidableEq, Repr

structure St where
  fs : FS
  trace : List FsEvent
deriving DecidableEq, Repr

def stWrite (st : St) (path : String) (c : Content) : St :=
  { fs := fsWrite st.fs path c, trace := st.trace ++ [FsEvent.write path] }

/-- `if os.path.exists(path): os.remove(path)` — the guard pattern used by
every cleanup handler in the router. -/
def stRemoveIfExists (st : St) (path : String) : St :=
  if fsExists st.fs path then
    { fs := fsErase st.fs path, trace := st.trace ++ [FsEvent.remove path] }
  else st

/-- `os.rename(src, dst)`; in every run of the router the source exists. -/
def stRename (st : St) (src dst : String) : St :=
  match fsLookup st.fs src with
  | some c =>
      { fs := fsWrite (fsErase st.fs src) dst c,
        trace := st.trace ++ [FsEvent.rename src dst] }
  | none => st

/-! ## Filenames of one pipeline run

Mirrors the f-strings of the router: `f"{base}_{name}{ext}"` for photo
variants, `f"{base}_thumbnail_{name}.jpg"` for video thumbnail variants,
`f"{base}_temp{ext}"` for the temporary upload, `f"{base}_temp_thumbnail.jpg"`
for the extracted frame, and `f"{base}{ext}"` for the stored video.
All files are placed with `os.path.join(UPLOAD_DIR, name)`.
-/

def UPLOAD_DIR : String := "uploads/media"

def osJoin (dir name : String) : String := dir ++ "/" ++ name

def variant_filename (base name ext : String) : String :=
  base ++ "_" ++ name ++ ext

def thumbnail_variant_filename (base name : String) : String :=
  base ++ "_thumbnail_" ++ name ++ ".jpg"

def temp_filename (base ext : String) : String := base ++ "_temp" ++ ext

def temp_thumbnail_filename (base : String) : String :=
  base ++ "_temp_thumbnail.jpg"

def video_filename (base ext : String) : String := base ++ ext

/-- The extension produced by the filename allocator: empty, or starting with
a dot.  This is the hypothesis under which run filenames cannot collide. -/
def extOK (ext : String) : Prop := ext = "" ∨ ext.data.head? = some '.'

/-! ## The raster resizer

`resize_image` in the router converts RGBA to RGB and then calls the PIL
`Image.thumbnail(size, LANCZOS)` routine.  The output dimensions are decided
by the preserve-aspect-ratio computation of that library routine, embedded
here over exact rationals: the bounded dimension keeps the box value and the
free dimension is rounded to whichever of floor and ceiling minimizes the
aspect-ratio error (with a clamp to at least one pixel); when the box already
contains the image, no resize happens at all.
-/

/-- PIL `round_aspect`: `max(min(floor(number), ceil(number), key=key), 1)`;
Python min returns the first argument on a key tie.  -/
def round_aspect (number : ℚ) (key : ℤ → ℚ) : ℤ :=
  max (if key ⌊number⌋ ≤ key ⌈number⌉ then ⌊number⌋ else ⌈number⌉) 1

/-- PIL `Image.thumbnail` size selection for source `w × h` and bounding box
`x0 × y0` (the router calls it with boxes (300,300), (800,800), (1200,1200)). -/
def thumbnail_size (w h x0 y0 : Nat) : Nat × Nat :=
  if x0 ≥ w ∧ y0 ≥ h then (w, h)
  else if (x0 : ℚ) / (y0 : ℚ) ≥ (w : ℚ) / (h : ℚ) then
    ((round_aspect ((y0 : ℚ) * ((w : ℚ) / (h : ℚ)))
        (fun n => |(w : ℚ) / (h : ℚ) - (n : ℚ) / (y0 : ℚ)|)).toNat, y0)
  else
    (x0, (round_aspect ((x0 : ℚ) / ((w : ℚ) / (h : ℚ)))
        (fun n => if n = 0 then 0
          else |(w : ℚ) / (h : ℚ) - (x0 : ℚ) / (n : ℚ)|)).toNat)

/-- `resize_image(image_path, size, quality=85)` of the router: convert RGBA
to RGB, then thumbnail within the box.  The quality parameter of the Python
function is unused in its body and is dropped here. -/
def resize_image (img : Img) (size : Nat × Nat) : Img :=
  let img2 := if img.mode = "RGBA" then { img with mode := "RGB" } else img
  let wh := thumbnail_size img2.width img2.height size.1 size.2
  { img2 with width := wh.1, height := wh.2 }

/-- ASCII lowercasing, character by character (Python `str.lower` restricted
to the ASCII range, which covers every extension the router dispatches on). -/
def strLower (s : String) : String := String.mk (s.data.map Char.toLower)

/-- Encoder selection of `create_image_variants` (router lines 112-121):
JPEG for .jpg/.jpeg, PNG for .png, WEBP for .webp, JPEG for anything else. -/
def save_format (ext : String) : String :=
  if strLower ext = ".jpg" ∨ strLower ext = ".jpeg" then "JPEG"
  else if strLower ext = ".png" then "PNG"
  else if strLower ext = ".webp" then "WEBP"
  else "JPEG"

/-- Modelled from the spec: the claimed output size
`round(srcWidth*s) × round(srcHeight*s)` with
`s = min(maxWidth/srcWidth, maxHeight/srcHeight, 1.0)`.  Stated only to be
compared against the size the code actually produces. -/
def spec_resize_size (w h maxW maxH : Nat) : Nat × Nat :=
  let s : ℚ := min (min ((maxW : ℚ) / (w : ℚ)) ((maxH : ℚ) / (h : ℚ))) 1
  ((round ((w : ℚ) * s)).toNat, (round ((h : ℚ) * s)).toNat)

/-! ## The filename allocator

`generate_filename` takes the declared original filename, extracts
`Path(original_filename).suffix.lower()` and pairs it with a fresh
`uuid.uuid4()` token.  The random token is an environment input here.
`path_suffix` follows the pathlib rule: the final path component is taken,
and the suffix is the slice from the last dot, provided that dot is neither
the first nor the last character of the component; otherwise it is empty.
-/

/-- Character-level splitting (the kernel-computable equivalent of splitting
a path string on the separator). -/
def splitOnChar (c : Char) : List Char → List (List Char)
  | [] => [[]]
  | x :: xs =>
    match splitOnChar c xs with
    | [] => [[]]
    | h :: t => if x = c then [] :: h :: t else (x :: h) :: t

/-- The final path component, as pathlib computes the `name` of a path:
trailing separators and empty components are ignored. -/
def pathName (s : String) : String :=
  String.mk ((((splitOnChar '/' s.data).filter
    (fun comp => comp != [])).getLast?).getD [])

def lastDotIdx (l : List Char) : Option Nat :=
  ((List.range l.length).filter (fun i => l.get? i == some '.')).getLast?

def path_suffix (s : String) : String :=
  let name := pathName s
  match lastDotIdx name.data with
  | some i =>
      if 0 < i ∧ i < name.data.length - 1 then String.mk (name.data.drop i)
      else ""
  | none => ""

def generate_filename (uniqueName original : String) : String × String :=
  (uniqueName, strLower (path_suffix original))

/-! ## The video frame extractor

`create_video_thumbnail_variants` (router lines 160-182) reads the frame
count, fails when it is zero, computes `middle_frame = total_frames // 2`,
seeks there and decodes one frame.  A well-formed video is a nonempty list of
decodable frames, whose frame count is its length. -/

def middle_frame (totalFrames : Nat) : Nat := totalFrames / 2

def extractMidFrame (frames : List Img) : Except String (Nat × Img) :=
  if frames.length = 0 then .error "Video has no frames"
  else
    match frames.get? (middle_frame frames.length) with
    | some fr => .ok (middle_frame frames.length, fr)
    | none => .error "Cannot read frame from video"

/-! ## The variant set builder and the upload handler

The stateful pipeline of the router, with every fallible library call driven
by an explicit fault configuration.  A failing step is atomic: it raises
without leaving a file (the Python handlers guard each deletion with an
existence check precisely because a step may fail before its file appears).
The dictionaries of the Python code are insertion-ordered association lists.
-/

/-- The size table of the router, in declaration order. -/
def IMAGE_SIZES : List (String × Option (Nat × Nat)) :=
  [("thumb", some (300, 300)), ("medium", some (800, 800)),
   ("large", some (1200, 1200)), ("original", none)]

instance instDecEqExcept {ε α : Type} [DecidableEq ε] [DecidableEq α] :
    DecidableEq (Except ε α) := fun x y =>
  match x, y with
  | .ok a, .ok b =>
    if h : a = b then isTrue (by rw [h])
    else isFalse (by intro he; cases he; exact h rfl)
  | .ok _, .error _ => isFalse (by intro he; cases he)
  | .error _, .ok _ => isFalse (by intro he; cases he)
  | .error e, .error g =>
    if h : e = g then isTrue (by rw [h])
    else isFalse (by intro he; cases he; exact h rfl)

inductive Err where
  | http (code : Nat) (detail : String)
deriving DecidableEq, Repr

/-- `str(e)` of a starlette HTTPException: `f"{status_code}: {detail}"`. -/
def errStr : Err → String
  | .http code detail => toString code ++ ": " ++ detail

inductive MediaType where
  | photo
  | video
deriving DecidableEq, Repr

structure MediaRow where
  mediaType : MediaType
  filename : String
  filePath : String
  filenameVariants : Option (List (String × String))
deriving DecidableEq, Repr

/-- Fault configuration: which fallible steps of one run raise.  The frames
of the uploaded video are also environment input and live here. -/
structure Faults where
  saveTempFails : Bool
  copyOriginalFails : Bool
  failingVariants : List String
  videoOpenFails : Bool
  videoFrames : List Img
  frameReadFails : Bool
  tempThumbSaveFails : Bool
  dbFails : Bool
deriving DecidableEq, Repr

/-- A run with no faults at all and an arbitrary three-frame video. -/
def noFaults : Faults :=
  { saveTempFails := false, copyOriginalFails := false, failingVariants := [],
    videoOpenFails := false, videoFrames := List.replicate 3 ⟨"RGB", 1, 1⟩,
    frameReadFails := false, tempThumbSaveFails := false, dbFails := false }

def variantFailMsg (name : String) : String := "cannot write file for " ++ name

def dbFailMsg : String := "db insert error"

/-- The cleanup loop shared by every except-handler of the router:
`for variant_file in variants.values(): if exists(path): remove(path)` —
iteration order is the insertion (creation) order of the dict. -/
def cleanupVariants (st : St) (variants : List (String × String)) : St :=
  variants.foldl (fun acc kv => stRemoveIfExists acc (osJoin UPLOAD_DIR kv.2)) st

/-- The size loop of `create_image_variants` (router lines 102-123): skip
the original entry, resize, pick the encoder by extension, save, record.
Returns the outcome, the variants recorded so far, and the state. -/
def imageSizeLoop (f : Faults) (srcImg : Img) (base ext : String) :
    List (String × Option (Nat × Nat)) → List (String × String) → St →
    Except String Unit × List (String × String) × St
  | [], variants, st => (.ok (), variants, st)
  | (sizeName, dims) :: rest, variants, st =>
    if sizeName = "original" then
      imageSizeLoop f srcImg base ext rest variants st
    else if sizeName ∈ f.failingVariants then
      (.error (variantFailMsg sizeName), variants, st)
    else
      let vname := variant_filename base sizeName ext
      let img := resize_image srcImg (dims.getD (0, 0))
      let st2 := stWrite st (osJoin UPLOAD_DIR vname)
        (Content.encoded img (save_format ext) 85)
      imageSizeLoop f srcImg base ext rest (variants ++ [(sizeName, vname)]) st2

/-- `create_image_variants(original_path, base_filename, file_extension)`
(router lines 86-136): copy the source byte-for-byte to the original variant,
then write the sized variants; on any error remove every recorded variant and
raise HTTP 500 wrapping the original message. -/
def create_image_variants (f : Faults) (originalPath base ext : String)
    (st : St) : Except Err (List (String × String)) × St :=
  match fsLookup st.fs originalPath with
  | none =>
      (.error (.http 500 ("Failed to create image variants: " ++
        "cannot read source")), st)
  | some src =>
    if f.copyOriginalFails then
      (.error (.http 500 ("Failed to create image variants: " ++
        "cannot copy original")), st)
    else
      let origName := variant_filename base "original" ext
      let st1 := stWrite st (osJoin UPLOAD_DIR origName) src
      match imageSizeLoop f (contentImg src) base ext IMAGE_SIZES
        [("original", origName)] st1 with
      | (.ok _, variants, st2) => (.ok variants, st2)
      | (.error msg, variants, st2) =>
          (.error (.http 500 ("Failed to create image variants: " ++ msg)),
           cleanupVariants st2 variants)

/-- The size loop of `create_thumbnail_variants` (router lines 229-243): all
four size names are processed, the original entry by byte copy, the others by
resize and JPEG save. -/
def thumbSizeLoop (f : Faults) (srcImg : Img) (srcContent : Content)
    (base : String) :
    List (String × Option (Nat × Nat)) → List (String × String) → St →
    Except String Unit × List (String × String) × St
  | [], variants, st => (.ok (), variants, st)
  | (sizeName, dims) :: rest, variants, st =>
    if sizeName ∈ f.failingVariants then
      (.error (variantFailMsg sizeName), variants, st)
    else
      let vname := thumbnail_variant_filename base sizeName
      let vpath := osJoin UPLOAD_DIR vname
      let st2 :=
        if sizeName = "original" then stWrite st vpath srcContent
        else stWrite st vpath
          (Content.encoded (resize_image srcImg (dims.getD (0, 0))) "JPEG" 85)
      thumbSizeLoop f srcImg srcContent base rest
        (variants ++ [(sizeName, vname)]) st2

/-- `create_thumbnail_variants(thumbnail_path, base_filename)` (router lines
223-256), with the same cleanup handler as the image variant builder. -/
def create_thumbnail_variants (f : Faults) (thumbnailPath base : String)
    (st : St) : Except Err (List (String × String)) × St :=
  match fsLookup st.fs thumbnailPath with
  | none =>
      (.error (.http 500 ("Failed to create thumbnail variants: " ++
        "cannot read source")), st)
  | some src =>
    match thumbSizeLoop f (contentImg src) src base IMAGE_SIZES [] st with
    | (.ok _, variants, st2) => (.ok variants, st2)
    | (.error msg, variants, st2) =>
        (.error (.http 500 ("Failed to create thumbnail variants: " ++ msg)),
         cleanupVariants st2 variants)

/-- `create_video_thumbnail_variants(video_path, base_filename)` (router
lines 155-220): open the video, take the frame at `total_frames // 2`, save
it as a temporary JPEG, build the four thumbnail variants from it, remove the
temporary JPEG.  On error the temporary JPEG is removed if it exists; the
local variants dict is still empty in every error path, so its cleanup loop
does nothing. -/
def create_video_thumbnail_variants (f : Faults) (videoPath base : String)
    (st : St) : Except Err (List (String × String)) × St :=
  if f.videoOpenFails then
    (.error (.http 500 ("Failed to create video thumbnail: " ++
      "Cannot open video file")), st)
  else if f.videoFrames.length = 0 then
    (.error (.http 500 ("Failed to create video thumbnail: " ++
      "Video has no frames")), st)
  else if f.frameReadFails then
    (.error (.http 500 ("Failed to create video thumbnail: " ++
      "Cannot read frame from video")), st)
  else
    match f.videoFrames.get? (middle_frame f.videoFrames.length) with
    | none =>
        (.error (.http 500 ("Failed to create video thumbnail: " ++
          "Cannot read frame from video")), st)
    | some frameImg =>
      if f.tempThumbSaveFails then
        (.error (.http 500 ("Failed to create video thumbnail: " ++
          "cannot save temp thumbnail")), st)
      else
        let tempPath := osJoin UPLOAD_DIR (temp_thumbnail_filename base)
        let st1 := stWrite st tempPath (Content.encoded frameImg "JPEG" 90)
        match create_thumbnail_variants f tempPath base st1 with
        | (.ok variants, st2) => (.ok variants, stRemoveIfExists st2 tempPath)
        | (.error e, st2) =>
            (.error (.http 500 ("Failed to create video thumbnail: " ++
              errStr e)), stRemoveIfExists st2 tempPath)

/-- The `upload_media` handler (router lines 263-345) from the point where
the temporary file is saved: photo uploads build the image variants and drop
the temporary file, video uploads rename the temporary file into the stored
video and build thumbnail variants; then the database row is created.  The
except-handler removes the temporary file if it still exists, then removes
every recorded variant if the variants dict was bound, and otherwise removes
the bound `file_path`; the triggering error is re-raised wrapped in HTTP 500.
For a video upload failing at the database step, `filename_variants` is
truthy, so the elif branch that would remove the stored video file is not
taken — modeled exactly as the code does it. -/
def upload_media (f : Faults) (mt : MediaType) (base ext : String)
    (content : Content) (st : St) : Except Err MediaRow × St :=
  let tempPath := osJoin UPLOAD_DIR (temp_filename base ext)
  if f.saveTempFails then
    (.error (.http 500 "Failed to save file: disk error"), st)
  else
    let st0 := stWrite st tempPath content
    match mt with
    | .photo =>
      match create_image_variants f tempPath base ext st0 with
      | (.ok variants, st1) =>
        let filename := (variants.lookup "medium").getD ""
        let filePath := osJoin UPLOAD_DIR filename
        let st2 := stRemoveIfExists st1 tempPath
        if f.dbFails then
          let st3 := stRemoveIfExists st2 tempPath
          let st4 := cleanupVariants st3 variants
          (.error (.http 500 ("Failed to create media record: " ++ dbFailMsg)),
           st4)
        else
          (.ok { mediaType := .photo, filename := filename,
                 filePath := filePath, filenameVariants := some variants }, st2)
      | (.error e, st1) =>
        let st2 := stRemoveIfExists st1 tempPath
        (.error (.http 500 ("Failed to create media record: " ++ errStr e)),
         st2)
    | .video =>
      let filename := video_filename base ext
      let filePath := osJoin UPLOAD_DIR filename
      let st1 := stRename st0 tempPath filePath
      match create_video_thumbnail_variants f filePath base st1 with
      | (.ok variants, st2) =>
        if f.dbFails then
          let st3 := stRemoveIfExists st2 tempPath
          let st4 := cleanupVariants st3 variants
          (.error (.http 500 ("Failed to create media record: " ++ dbFailMsg)),
           st4)
        else
          (.ok { mediaType := .video, filename := filename,
                 filePath := filePath, filenameVariants := some variants }, st2)
      | (.error e, st2) =>
        let st3 := stRemoveIfExists st2 tempPath
        let st4 := stRemoveIfExists st3 filePath
        (.error (.http 500 ("Failed to create media record: " ++ errStr e)),
         st4)

/-! ## Projections of the event trace -/

def writesOf (tr : List FsEvent) : List String :=
  tr.filterMap fun e =>
    match e with
    | .write p => some p
    | _ => none

def removesOf (tr : List FsEvent) : List String :=
  tr.filterMap fun e =>
    match e with
    | .remove p => some p
    | _ => none

/-! ## Claims -/

def PHOTO_VARIANT_NAMES : List String := ["original", "thumb", "medium", "large"]

/-! Concrete demonstration inputs. -/

def demoImg : Img := ⟨"RGB", 4, 3⟩

def demoContent : Content := .file demoImg [7]

def emptySt : St := ⟨[], []⟩

/-! ## Theorems: the filesystem model -/

@[simp] theorem fsLookup_nil (n : String) : fsLookup [] n = none := rfl

@[simp] theorem fsLookup_cons (m : String) (c : Content) (fs : FS) (n : String) :
    fsLookup ((m, c) :: fs) n = if m = n then some c else fsLookup fs n := rfl

@[simp] theorem fsErase_nil (n : String) : fsErase [] n = [] := rfl

theorem fsLookup_erase_ne (fs : FS) {m n : String} (h : m ≠ n) :
    fsLookup (fsErase fs n) m = fsLookup fs m := by
  induction fs with
  | nil => rfl
  | cons p rest ih =>
    obtain ⟨k, c⟩ := p
    by_cases hk : k = n
    · subst hk
      rw [show fsErase ((k, c) :: rest) k = fsErase rest k from by simp [fsErase]]
      rw [ih, fsLookup_cons, if_neg (fun he => h he.symm)]
    · simp only [fsErase, if_neg hk, fsLookup_cons, ih]

@[simp] theorem fsLookup_erase_self (fs : FS) (n : String) :
    fsLookup (fsErase fs n) n = none := by
  induction fs with
  | nil => rfl
  | cons p rest ih =>
    obtain ⟨k, c⟩ := p
    by_cases hk : k = n
    · simpa [fsErase, hk] using ih
    · simp [fsErase, hk, ih]

@[simp] theorem fsLookup_write_self (fs : FS) (n : String) (c : Content) :
    fsLookup (fsWrite fs n c) n = some c := by
  simp [fsWrite]

theorem fsLookup_write_ne (fs : FS) {m n : String} (c : Content) (h : m ≠ n) :
    fsLookup (fsWrite fs n c) m = fsLookup fs m := by
  unfold fsWrite
  rw [fsLookup_cons, if_neg (fun he => h he.symm), fsLookup_erase_ne fs h]

/-- A fresh name: erasing it is a no-op. -/
theorem fsErase_of_lookup_none {fs : FS} {n : String} (h : fsLookup fs n = none) :
    fsErase fs n = fs := by
  induction fs with
  | nil => rfl
  | cons p rest ih =>
    obtain ⟨k, c⟩ := p
    by_cases hk : k = n
    · simp [hk] at h
    · simp only [fsLookup_cons, if_neg hk] at h
      simp [fsErase, hk, ih h]

/-- Removing a freshly written name restores the previous directory. -/
theorem fsErase_write_fresh {fs : FS} {n : String} (c : Content)
    (h : fsLookup fs n = none) : fsErase (fsWrite fs n c) n = fs := by
  simp [fsWrite, fsErase, fsErase_of_lookup_none h, fsErase_of_lookup_none
    (show fsLookup (fsErase fs n) n = none by simp)]

@[simp] theorem stWrite_fs (st : St) (p : String) (c : Content) :
    (stWrite st p c).fs = fsWrite st.fs p c := rfl

@[simp] theorem stWrite_trace (st : St) (p : String) (c : Content) :
    (stWrite st p c).trace = st.trace ++ [FsEvent.write p] := rfl

theorem stRemoveIfExists_of_exists {st : St} {p : String}
    (h : fsExists st.fs p = true) :
    stRemoveIfExists st p =
      { fs := fsErase st.fs p, trace := st.trace ++ [FsEvent.remove p] } := by
  simp [stRemoveIfExists, h]

/-- The cleanup guard silently skips a tracked path that no longer exists:
the state (directory and trace) is unchanged and no error is possible. -/
theorem stRemoveIfExists_of_missing {st : St} {p : String}
    (h : fsExists st.fs p = false) : stRemoveIfExists st p = st := by
  simp [stRemoveIfExists, h]

@[simp] theorem fsLookup_stRemoveIfExists_self (st : St) (p : String) :
    fsLookup (stRemoveIfExists st p).fs p = none := by
  unfold stRemoveIfExists
  by_cases h : fsExists st.fs p
  · simp [h]
  · simp only [h, Bool.false_eq_true, if_neg, not_false_iff]
    cases hl : fsLookup st.fs p with
    | none => rfl
    | some c => exact absurd (by simp [fsExists, hl]) h

theorem fsLookup_stRemoveIfExists_ne (st : St) {q p : String} (h : q ≠ p) :
    fsLookup (stRemoveIfExists st p).fs q = fsLookup st.fs q := by
  unfold stRemoveIfExists
  by_cases he : fsExists st.fs p
  · simp [he, fsLookup_erase_ne st.fs h]
  · simp [he]

/-! ## String inequality toolkit

All run filenames are normalized to the shape `base ++ tail`; distinctness of
two filenames then reduces to distinctness of the tails, settled either by
cancellation against a shared literal prefix, by a length argument, or by a
hypothesis on the shape of the uploaded extension.
-/

theorem string_append_assoc (a b c : String) : a ++ b ++ c = a ++ (b ++ c) :=
  String.ext (by simp [String.data_append, List.append_assoc])

theorem string_append_left_cancel {a t1 t2 : String} (h : a ++ t1 = a ++ t2) :
    t1 = t2 := by
  apply String.ext
  have hd := congrArg String.data h
  simp only [String.data_append] at hd
  exact List.append_cancel_left hd

theorem string_append_right_cancel {t1 t2 e : String} (h : t1 ++ e = t2 ++ e) :
    t1 = t2 := by
  apply String.ext
  have hd := congrArg String.data h
  simp only [String.data_append] at hd
  exact List.append_cancel_right hd

theorem name_tail_ne (base : String) {t1 t2 : String} (h : t1 ≠ t2) :
    base ++ t1 ≠ base ++ t2 :=
  fun he => h (string_append_left_cancel he)

theorem name_mid_ne (base : String) {l1 l2 : String} (ext : String)
    (h : l1 ≠ l2) : base ++ l1 ++ ext ≠ base ++ l2 ++ ext := by
  intro he
  rw [string_append_assoc, string_append_assoc] at he
  exact h (string_append_right_cancel (string_append_left_cancel he))

/-- A string with a nonempty prefix glued on differs from the bare string. -/
theorem prepend_nonempty_ne {p : String} (e : String) (hp : p.length ≠ 0) :
    p ++ e ≠ e := by
  intro he
  apply hp
  have hl := congrArg String.length he
  rw [String.length_append] at hl
  omega

theorem extOK_ne_of_head_underscore {ext t : String} (hext : extOK ext)
    (ht : t.data.head? = some '_') : ext ≠ t := by
  intro he
  subst he
  rcases hext with h0 | hdot
  · rw [h0] at ht
    simp at ht
  · rw [hdot] at ht
    simp at ht

theorem osJoin_ne {a b : String} (h : a ≠ b) :
    osJoin UPLOAD_DIR a ≠ osJoin UPLOAD_DIR b := by
  unfold osJoin
  rw [string_append_assoc, string_append_assoc]
  exact name_tail_ne _ (name_tail_ne _ h)

/-! Tail normal forms for the run filenames. -/

theorem variant_filename_shape (base name ext : String) :
    variant_filename base name ext = base ++ (("_" ++ name) ++ ext) := by
  unfold variant_filename
  rw [string_append_assoc base "_" name, string_append_assoc]

theorem temp_filename_shape (base ext : String) :
    temp_filename base ext = base ++ ("_temp" ++ ext) := by
  unfold temp_filename
  rw [string_append_assoc]

theorem thumbnail_variant_filename_shape (base name : String) :
    thumbnail_variant_filename base name =
      base ++ (("_thumbnail_" ++ name) ++ ".jpg") := by
  unfold thumbnail_variant_filename
  rw [string_append_assoc base "_thumbnail_" name, string_append_assoc]

/-! ## Distinctness of run filenames -/

/-- A string with a glued-on front piece that is no initial segment of `t`
cannot equal `t`. -/
theorem front_clash_ne {p1 : String} (a : String) {t : String}
    (h1 : ¬ p1.data <+: t.data) : p1 ++ a ≠ t := by
  intro he
  have hd := congrArg String.data he
  simp only [String.data_append] at hd
  exact h1 ⟨a.data, hd⟩

theorem vf_ne_vf (base ext : String) {n1 n2 : String} (h : n1 ≠ n2) :
    variant_filename base n1 ext ≠ variant_filename base n2 ext := by
  unfold variant_filename
  exact name_mid_ne (base ++ "_") ext h

theorem tvf_ne_tvf (base : String) {n1 n2 : String} (h : n1 ≠ n2) :
    thumbnail_variant_filename base n1 ≠ thumbnail_variant_filename base n2 := by
  unfold thumbnail_variant_filename
  exact name_mid_ne (base ++ "_thumbnail_") ".jpg" h

theorem vf_ne_temp (base ext : String) (n : String) (h : "_" ++ n ≠ "_temp") :
    variant_filename base n ext ≠ temp_filename base ext := by
  unfold variant_filename temp_filename
  rw [string_append_assoc base "_" n]
  exact name_mid_ne base ext h

/-- The photo variant tails all clash with the temp thumbnail name in their
first characters, for every uploaded extension. -/
theorem vf_ne_tempthumb (base ext : String) (n : String)
    (h : ¬ ("_" ++ n).data <+: "_temp_thumbnail.jpg".data) :
    variant_filename base n ext ≠ temp_thumbnail_filename base := by
  rw [variant_filename_shape]
  unfold temp_thumbnail_filename
  exact name_tail_ne base (front_clash_ne ext h)

theorem tvf_ne_tempthumb (base : String) (n : String)
    (h : ("_thumbnail_" ++ n) ++ ".jpg" ≠ "_temp_thumbnail.jpg") :
    thumbnail_variant_filename base n ≠ temp_thumbnail_filename base := by
  rw [thumbnail_variant_filename_shape]
  unfold temp_thumbnail_filename
  exact name_tail_ne base h

theorem temp_ne_tempthumb (base ext : String) (hext : extOK ext) :
    temp_filename base ext ≠ temp_thumbnail_filename base := by
  rw [temp_filename_shape]
  unfold temp_thumbnail_filename
  apply name_tail_ne base
  rw [show ("_temp_thumbnail.jpg" : String) = "_temp" ++ "_thumbnail.jpg" from
    by decide]
  exact name_tail_ne "_temp" (extOK_ne_of_head_underscore hext (by decide))

theorem temp_ne_tvf (base ext : String) (n : String)
    (h : ¬ "_temp".data <+: (("_thumbnail_" ++ n) ++ ".jpg").data) :
    temp_filename base ext ≠ thumbnail_variant_filename base n := by
  rw [temp_filename_shape, thumbnail_variant_filename_shape]
  exact name_tail_ne base (front_clash_ne ext h)

theorem video_ne_temp (base ext : String) :
    video_filename base ext ≠ temp_filename base ext := by
  unfold video_filename
  rw [temp_filename_shape]
  intro he
  exact prepend_nonempty_ne ext (by decide) (string_append_left_cancel he).symm

theorem video_ne_tempthumb (base ext : String) (hext : extOK ext) :
    video_filename base ext ≠ temp_thumbnail_filename base := by
  unfold video_filename temp_thumbnail_filename
  exact name_tail_ne base (extOK_ne_of_head_underscore hext (by decide))

theorem video_ne_tvf (base ext : String) (n : String) (hext : extOK ext)
    (h : (("_thumbnail_" ++ n) ++ ".jpg").data.head? = some '_') :
    video_filename base ext ≠ thumbnail_variant_filename base n := by
  unfold video_filename
  rw [thumbnail_variant_filename_shape]
  exact name_tail_ne base (extOK_ne_of_head_underscore hext h)

theorem fsErase_eq_filter (fs : FS) (n : String) :
    fsErase fs n = fs.filter (fun kv => kv.1 != n) := by
  induction fs with
  | nil => rfl
  | cons kv rest ih =>
    obtain ⟨k, c⟩ := kv
    by_cases hk : k = n <;> simp [fsErase, hk, ih]

theorem fsErase_comm (fs : FS) (p q : String) :
    fsErase (fsErase fs p) q = fsErase (fsErase fs q) p := by
  simp only [fsErase_eq_filter, List.filter_filter]
  exact List.filter_congr (fun kv _ => by rw [Bool.and_comm])

theorem fsErase_write_ne {p q : String} (fs : FS) (c : Content) (h : q ≠ p) :
    fsErase (fsWrite fs p c) q = fsWrite (fsErase fs q) p c := by
  have h2 : ¬ p = q := fun he => h he.symm
  simp [fsWrite, fsErase, h2, fsErase_comm]

/-! ## Characterization of the fault-free builder runs -/

theorem create_image_variants_ok (f : Faults) (base ext srcPath : String)
    (src : Content) (st : St) (hsrc : fsLookup st.fs srcPath = some src)
    (hc : f.copyOriginalFails = false)
    (ht : "thumb" ∉ f.failingVariants) (hm : "medium" ∉ f.failingVariants)
    (hl : "large" ∉ f.failingVariants) :
    create_image_variants f srcPath base ext st =
      (.ok [("original", variant_filename base "original" ext),
            ("thumb", variant_filename base "thumb" ext),
            ("medium", variant_filename base "medium" ext),
            ("large", variant_filename base "large" ext)],
       stWrite (stWrite (stWrite (stWrite st
         (osJoin UPLOAD_DIR (variant_filename base "original" ext)) src)
         (osJoin UPLOAD_DIR (variant_filename base "thumb" ext))
         (Content.encoded (resize_image (contentImg src) (300, 300))
           (save_format ext) 85))
         (osJoin UPLOAD_DIR (variant_filename base "medium" ext))
         (Content.encoded (resize_image (contentImg src) (800, 800))
           (save_format ext) 85))
         (osJoin UPLOAD_DIR (variant_filename base "large" ext))
         (Content.encoded (resize_image (contentImg src) (1200, 1200))
           (save_format ext) 85)) := by
  simp [create_image_variants, hsrc, hc, IMAGE_SIZES, imageSizeLoop, ht, hm, hl]

theorem create_thumbnail_variants_ok (f : Faults) (base thumbnailPath : String)
    (src : Content) (st : St) (hsrc : fsLookup st.fs thumbnailPath = some src)
    (ht : "thumb" ∉ f.failingVariants) (hm : "medium" ∉ f.failingVariants)
    (hl : "large" ∉ f.failingVariants) (ho : "original" ∉ f.failingVariants) :
    create_thumbnail_variants f thumbnailPath base st =
      (.ok [("thumb", thumbnail_variant_filename base "thumb"),
            ("medium", thumbnail_variant_filename base "medium"),
            ("large", thumbnail_variant_filename base "large"),
            ("original", thumbnail_variant_filename base "original")],
       stWrite (stWrite (stWrite (stWrite st
         (osJoin UPLOAD_DIR (thumbnail_variant_filename base "thumb"))
         (Content.encoded (resize_image (contentImg src) (300, 300)) "JPEG" 85))
         (osJoin UPLOAD_DIR (thumbnail_variant_filename base "medium"))
         (Content.encoded (resize_image (contentImg src) (800, 800)) "JPEG" 85))
         (osJoin UPLOAD_DIR (thumbnail_variant_filename base "large"))
         (Content.encoded (resize_image (contentImg src) (1200, 1200)) "JPEG" 85))
         (osJoin UPLOAD_DIR (thumbnail_variant_filename base "original")) src) := by
  simp [create_thumbnail_variants, hsrc, IMAGE_SIZES, thumbSizeLoop,
    ht, hm, hl, ho]

set_option maxHeartbeats 800000 in
theorem create_video_thumbnail_variants_ok (f : Faults)
    (base videoPath : String) (frameImg : Img) (st : St)
    (ho : f.videoOpenFails = false)
    (hr : f.frameReadFails = false) (hts : f.tempThumbSaveFails = false)
    (hfr : f.videoFrames.get? (middle_frame f.videoFrames.length) =
      some frameImg)
    (h1 : "thumb" ∉ f.failingVariants) (h2 : "medium" ∉ f.failingVariants)
    (h3 : "large" ∉ f.failingVariants) (h4 : "original" ∉ f.failingVariants) :
    create_video_thumbnail_variants f videoPath base st =
      (.ok [("thumb", thumbnail_variant_filename base "thumb"),
            ("medium", thumbnail_variant_filename base "medium"),
            ("large", thumbnail_variant_filename base "large"),
            ("original", thumbnail_variant_filename base "original")],
       { fs := fsErase (fsWrite (fsWrite (fsWrite (fsWrite (fsWrite st.fs
            (osJoin UPLOAD_DIR (temp_thumbnail_filename base))
            (Content.encoded frameImg "JPEG" 90))
            (osJoin UPLOAD_DIR (thumbnail_variant_filename base "thumb"))
            (Content.encoded (resize_image frameImg (300, 300)) "JPEG" 85))
            (osJoin UPLOAD_DIR (thumbnail_variant_filename base "medium"))
            (Content.encoded (resize_image frameImg (800, 800)) "JPEG" 85))
            (osJoin UPLOAD_DIR (thumbnail_variant_filename base "large"))
            (Content.encoded (resize_image frameImg (1200, 1200)) "JPEG" 85))
            (osJoin UPLOAD_DIR (thumbnail_variant_filename base "original"))
            (Content.encoded frameImg "JPEG" 90))
          (osJoin UPLOAD_DIR (temp_thumbnail_filename base)),
         trace := st.trace ++
           [FsEvent.write (osJoin UPLOAD_DIR (temp_thumbnail_filename base)),
            FsEvent.write
              (osJoin UPLOAD_DIR (thumbnail_variant_filename base "thumb")),
            FsEvent.write
              (osJoin UPLOAD_DIR (thumbnail_variant_filename base "medium")),
            FsEvent.write
              (osJoin UPLOAD_DIR (thumbnail_variant_filename base "large")),
            FsEvent.write
              (osJoin UPLOAD_DIR (thumbnail_variant_filename base "original")),
            FsEvent.remove
              (osJoin UPLOAD_DIR (temp_thumbnail_filename base))] }) := by
  have hlen : ¬ f.videoFrames.length = 0 := by
    intro h0
    rw [middle_frame, h0] at hfr
    rw [List.length_eq_zero] at h0
    rw [h0] at hfr
    simp at hfr
  have q1 : osJoin UPLOAD_DIR (temp_thumbnail_filename base) ≠
      osJoin UPLOAD_DIR (thumbnail_variant_filename base "thumb") :=
    osJoin_ne (fun he => tvf_ne_tempthumb base "thumb" (by decide) he.symm)
  have q2 : osJoin UPLOAD_DIR (temp_thumbnail_filename base) ≠
      osJoin UPLOAD_DIR (thumbnail_variant_filename base "medium") :=
    osJoin_ne (fun he => tvf_ne_tempthumb base "medium" (by decide) he.symm)
  have q3 : osJoin UPLOAD_DIR (temp_thumbnail_filename base) ≠
      osJoin UPLOAD_DIR (thumbnail_variant_filename base "large") :=
    osJoin_ne (fun he => tvf_ne_tempthumb base "large" (by decide) he.symm)
  have q4 : osJoin UPLOAD_DIR (temp_thumbnail_filename base) ≠
      osJoin UPLOAD_DIR (thumbnail_variant_filename base "original") :=
    osJoin_ne (fun he => tvf_ne_tempthumb base "original" (by decide) he.symm)
  unfold create_video_thumbnail_variants
  rw [ho]
  simp only [Bool.false_eq_true, if_false]
  rw [if_neg hlen, hr]
  simp only [Bool.false_eq_true, if_false]
  rw [hfr, hts]
  simp only [Bool.false_eq_true, if_false]
  rw [create_thumbnail_variants_ok f base _
    (Content.encoded frameImg "JPEG" 90) _ (by simp) h1 h2 h3 h4]
  have hex : fsExists (stWrite (stWrite (stWrite (stWrite (stWrite st
      (osJoin UPLOAD_DIR (temp_thumbnail_filename base))
      (Content.encoded frameImg "JPEG" 90))
      (osJoin UPLOAD_DIR (thumbnail_variant_filename base "thumb"))
      (Content.encoded (resize_image
        (contentImg (Content.encoded frameImg "JPEG" 90)) (300, 300)) "JPEG" 85))
      (osJoin UPLOAD_DIR (thumbnail_variant_filename base "medium"))
      (Content.encoded (resize_image
        (contentImg (Content.encoded frameImg "JPEG" 90)) (800, 800)) "JPEG" 85))
      (osJoin UPLOAD_DIR (thumbnail_variant_filename base "large"))
      (Content.encoded (resize_image
        (contentImg (Content.encoded frameImg "JPEG" 90)) (1200, 1200)) "JPEG" 85))
      (osJoin UPLOAD_DIR (thumbnail_variant_filename base "original"))
      (Content.encoded frameImg "JPEG" 90)).fs
      (osJoin UPLOAD_DIR (temp_thumbnail_filename base)) = true := by
    simp only [stWrite_fs, fsExists]
    rw [fsLookup_write_ne _ _ q4, fsLookup_write_ne _ _ q3,
      fsLookup_write_ne _ _ q2, fsLookup_write_ne _ _ q1, fsLookup_write_self]
    rfl
  dsimp only
  rw [stRemoveIfExists_of_exists hex]
  simp [contentImg, stWrite_fs, List.append_assoc]

set_option maxHeartbeats 800000 in
/-- Final state of a failing image-variant run: the recorded files are
written and then removed in the same (creation) order, restoring the
directory, and the error wraps the triggering message. -/
theorem create_image_variants_err (f : Faults) (base ext srcPath : String)
    (src : Content) (st : St) (hsrc : fsLookup st.fs srcPath = some src)
    (hfO : fsLookup st.fs
      (osJoin UPLOAD_DIR (variant_filename base "original" ext)) = none)
    (hfT : fsLookup st.fs
      (osJoin UPLOAD_DIR (variant_filename base "thumb" ext)) = none)
    (hfM : fsLookup st.fs
      (osJoin UPLOAD_DIR (variant_filename base "medium" ext)) = none)
    (hfail : f.copyOriginalFails = true ∨ "thumb" ∈ f.failingVariants ∨
             "medium" ∈ f.failingVariants ∨ "large" ∈ f.failingVariants) :
    ∃ (msg : String) (created : List String),
      create_image_variants f srcPath base ext st =
        (.error (.http 500 ("Failed to create image variants: " ++ msg)),
         { fs := st.fs,
           trace := st.trace ++ created.map FsEvent.write ++
             created.map FsEvent.remove }) := by
  have pOT : osJoin UPLOAD_DIR (variant_filename base "original" ext) ≠
      osJoin UPLOAD_DIR (variant_filename base "thumb" ext) :=
    osJoin_ne (vf_ne_vf base ext (by decide))
  have pOM : osJoin UPLOAD_DIR (variant_filename base "original" ext) ≠
      osJoin UPLOAD_DIR (variant_filename base "medium" ext) :=
    osJoin_ne (vf_ne_vf base ext (by decide))
  have pTM : osJoin UPLOAD_DIR (variant_filename base "thumb" ext) ≠
      osJoin UPLOAD_DIR (variant_filename base "medium" ext) :=
    osJoin_ne (vf_ne_vf base ext (by decide))
  by_cases hc : f.copyOriginalFails = true
  · refine ⟨"cannot copy original", [], ?_⟩
    simp [create_image_variants, hsrc, hc]
  · have hc2 : f.copyOriginalFails = false := by
      revert hc
      cases f.copyOriginalFails <;> simp
    by_cases ht : "thumb" ∈ f.failingVariants
    · refine ⟨variantFailMsg "thumb",
        [osJoin UPLOAD_DIR (variant_filename base "original" ext)], ?_⟩
      simp [create_image_variants, hsrc, hc2, IMAGE_SIZES, imageSizeLoop, ht,
        cleanupVariants, stRemoveIfExists, fsExists, fsLookup_write_self,
        fsErase_write_fresh, hfO]
    · by_cases hm : "medium" ∈ f.failingVariants
      · refine ⟨variantFailMsg "medium",
          [osJoin UPLOAD_DIR (variant_filename base "original" ext),
           osJoin UPLOAD_DIR (variant_filename base "thumb" ext)], ?_⟩
        simp [create_image_variants, hsrc, hc2, IMAGE_SIZES, imageSizeLoop,
          ht, hm, cleanupVariants, stRemoveIfExists, fsExists,
          fsLookup_write_self, fsLookup_write_ne, fsErase_write_ne,
          fsErase_write_fresh, hfO, hfT, pOT, pOM, pTM]
      · by_cases hl : "large" ∈ f.failingVariants
        · refine ⟨variantFailMsg "large",
            [osJoin UPLOAD_DIR (variant_filename base "original" ext),
             osJoin UPLOAD_DIR (variant_filename base "thumb" ext),
             osJoin UPLOAD_DIR (variant_filename base "medium" ext)], ?_⟩
          simp [create_image_variants, hsrc, hc2, IMAGE_SIZES, imageSizeLoop,
            ht, hm, hl, cleanupVariants, stRemoveIfExists, fsExists,
            fsLookup_write_self, fsLookup_write_ne, fsErase_write_ne,
            fsErase_write_fresh, hfO, hfT, hfM, pOT, pOM, pTM]
        · rcases hfail with h | h | h | h <;> simp_all

set_option maxHeartbeats 800000 in
/-- Final state of a failing thumbnail-variant run, same cleanup pattern. -/
theorem create_thumbnail_variants_err (f : Faults)
    (base thumbnailPath : String) (src : Content) (st : St)
    (hsrc : fsLookup st.fs thumbnailPath = some src)
    (hfT : fsLookup st.fs
      (osJoin UPLOAD_DIR (thumbnail_variant_filename base "thumb")) = none)
    (hfM : fsLookup st.fs
      (osJoin UPLOAD_DIR (thumbnail_variant_filename base "medium")) = none)
    (hfL : fsLookup st.fs
      (osJoin UPLOAD_DIR (thumbnail_variant_filename base "large")) = none)
    (hfail : "thumb" ∈ f.failingVariants ∨ "medium" ∈ f.failingVariants ∨
             "large" ∈ f.failingVariants ∨ "original" ∈ f.failingVariants) :
    ∃ (msg : String) (created : List String),
      create_thumbnail_variants f thumbnailPath base st =
        (.error (.http 500 ("Failed to create thumbnail variants: " ++ msg)),
         { fs := st.fs,
           trace := st.trace ++ created.map FsEvent.write ++
             created.map FsEvent.remove }) := by
  have pTM : osJoin UPLOAD_DIR (thumbnail_variant_filename base "thumb") ≠
      osJoin UPLOAD_DIR (thumbnail_variant_filename base "medium") :=
    osJoin_ne (tvf_ne_tvf base (by decide))
  have pTL : osJoin UPLOAD_DIR (thumbnail_variant_filename base "thumb") ≠
      osJoin UPLOAD_DIR (thumbnail_variant_filename base "large") :=
    osJoin_ne (tvf_ne_tvf base (by decide))
  have pML : osJoin UPLOAD_DIR (thumbnail_variant_filename base "medium") ≠
      osJoin UPLOAD_DIR (thumbnail_variant_filename base "large") :=
    osJoin_ne (tvf_ne_tvf base (by decide))
  by_cases ht : "thumb" ∈ f.failingVariants
  · refine ⟨variantFailMsg "thumb", [], ?_⟩
    simp [create_thumbnail_variants, hsrc, IMAGE_SIZES, thumbSizeLoop, ht,
      cleanupVariants]
  · by_cases hm : "medium" ∈ f.failingVariants
    · refine ⟨variantFailMsg "medium",
        [osJoin UPLOAD_DIR (thumbnail_variant_filename base "thumb")], ?_⟩
      simp [create_thumbnail_variants, hsrc, IMAGE_SIZES, thumbSizeLoop, ht,
        hm, cleanupVariants, stRemoveIfExists, fsExists, fsLookup_write_self,
        fsErase_write_fresh, hfT]
    · by_cases hl : "large" ∈ f.failingVariants
      · refine ⟨variantFailMsg "large",
          [osJoin UPLOAD_DIR (thumbnail_variant_filename base "thumb"),
           osJoin UPLOAD_DIR (thumbnail_variant_filename base "medium")], ?_⟩
        simp [create_thumbnail_variants, hsrc, IMAGE_SIZES, thumbSizeLoop,
          ht, hm, hl, cleanupVariants, stRemoveIfExists, fsExists,
          fsLookup_write_self, fsLookup_write_ne, fsErase_write_ne,
          fsErase_write_fresh, hfT, hfM, pTM, pTL, pML]
      · by_cases ho : "original" ∈ f.failingVariants
        · refine ⟨variantFailMsg "original",
            [osJoin UPLOAD_DIR (thumbnail_variant_filename base "thumb"),
             osJoin UPLOAD_DIR (thumbnail_variant_filename base "medium"),
             osJoin UPLOAD_DIR (thumbnail_variant_filename base "large")], ?_⟩
          simp [create_thumbnail_variants, hsrc, IMAGE_SIZES, thumbSizeLoop,
            ht, hm, hl, ho, cleanupVariants, stRemoveIfExists, fsExists,
            fsLookup_write_self, fsLookup_write_ne, fsErase_write_ne,
            fsErase_write_fresh, hfT, hfM, hfL, pTM, pTL, pML]
        · rcases hfail with h | h | h | h <;> simp_all

/-! ## The claims -/

/-- Claim C8: variant filename formatting is deterministic — equal inputs
give equal strings — and injective: for a fixed base and extension, distinct
variant names among original/thumb/medium/large never collide, the video
thumbnail names never collide with each other, and photo variant names never
collide with video thumbnail names. -/
theorem variant_filename_deterministic_injective :
    (∀ base name ext : String,
      variant_filename base name ext = variant_filename base name ext) ∧
    (∀ base ext n1 n2 : String, n1 ∈ PHOTO_VARIANT_NAMES →
      n2 ∈ PHOTO_VARIANT_NAMES → n1 ≠ n2 →
      variant_filename base n1 ext ≠ variant_filename base n2 ext) ∧
    (∀ base n1 n2 : String, n1 ∈ PHOTO_VARIANT_NAMES →
      n2 ∈ PHOTO_VARIANT_NAMES → n1 ≠ n2 →
      thumbnail_variant_filename base n1 ≠ thumbnail_variant_filename base n2) ∧
    (∀ base n1 n2 : String, n1 ∈ PHOTO_VARIANT_NAMES →
      n2 ∈ PHOTO_VARIANT_NAMES →
      variant_filename base n1 ".jpg" ≠ thumbnail_variant_filename base n2) := by
  refine ⟨fun _ _ _ => rfl, ?_, ?_, ?_⟩
  · intro base ext n1 n2 _ _ h
    exact vf_ne_vf base ext h
  · intro base n1 n2 _ _ h
    exact tvf_ne_tvf base h
  · intro base n1 n2 h1 h2
    simp only [PHOTO_VARIANT_NAMES, List.mem_cons, List.not_mem_nil,
      or_false] at h1 h2
    rcases h1 with rfl | rfl | rfl | rfl <;>
      rcases h2 with rfl | rfl | rfl | rfl <;>
      · rw [variant_filename_shape, thumbnail_variant_filename_shape]
        exact name_tail_ne base (by decide)

/-- Witness for C8 at concrete inputs. -/
theorem variant_filename_deterministic_injective_witness :
    variant_filename "b" "thumb" ".png" ≠ variant_filename "b" "large" ".png" ∧
    thumbnail_variant_filename "b" "thumb" ≠
      thumbnail_variant_filename "b" "original" ∧
    variant_filename "b" "large" ".jpg" ≠ thumbnail_variant_filename "b" "large" :=
  ⟨variant_filename_deterministic_injective.2.1 "b" ".png" "thumb" "large"
      (by decide) (by decide) (by decide),
   variant_filename_deterministic_injective.2.2.1 "b" "thumb" "original"
      (by decide) (by decide) (by decide),
   variant_filename_deterministic_injective.2.2.2 "b" "large" "large"
      (by decide) (by decide)⟩

/-- Claim C10: the resize step converts an RGBA source to RGB
unconditionally — the target format is not consulted — so every resized
variant is saved from an image without alpha, also when the encoder chosen
for the variant is the alpha-capable PNG or WEBP. -/
theorem resize_converts_rgba_unconditionally :
    (∀ (img : Img) (size : Nat × Nat), img.mode = "RGBA" →
      (resize_image img size).mode = "RGB") ∧
    save_format ".png" = "PNG" ∧ save_format ".webp" = "WEBP" := by
  refine ⟨?_, by decide, by decide⟩
  intro img size h
  simp [resize_image, h]

/-- Witness for C10 at a concrete RGBA image. -/
theorem resize_converts_rgba_unconditionally_witness :
    (resize_image ⟨"RGBA", 10, 5⟩ (300, 300)).mode = "RGB" :=
  resize_converts_rgba_unconditionally.1 ⟨"RGBA", 10, 5⟩ (300, 300) rfl

set_option maxRecDepth 4000 in
/-- Claim C3: for every video with at least one decodable frame, the
mid-frame extraction selects exactly the frame at index
`totalFrames / 2` (integer division) and does not fail; a 300-frame video
yields frame index 150 and a 1-frame video yields frame index 0. -/
theorem extractMidFrame_mid_index :
    (∀ frames : List Img, frames ≠ [] →
      ∃ fr, extractMidFrame frames = .ok (middle_frame frames.length, fr)) ∧
    extractMidFrame (List.replicate 300 ⟨"RGB", 640, 480⟩) =
      .ok (150, ⟨"RGB", 640, 480⟩) ∧
    extractMidFrame [(⟨"RGB", 640, 480⟩ : Img)] = .ok (0, ⟨"RGB", 640, 480⟩) := by
  refine ⟨?_, by decide, by decide⟩
  intro frames h
  have hpos : 0 < frames.length := List.length_pos.mpr h
  have hlt : middle_frame frames.length < frames.length :=
    Nat.div_lt_self hpos (by omega)
  unfold extractMidFrame
  rw [if_neg (by omega)]
  rcases hget : frames.get? (middle_frame frames.length) with _ | fr
  · rw [List.get?_eq_none] at hget
    omega
  · exact ⟨fr, rfl⟩

/-- Witness for C3 at a concrete one-frame video. -/
theorem extractMidFrame_mid_index_witness :
    ∃ fr, extractMidFrame [(⟨"RGB", 640, 480⟩ : Img)] =
      .ok (middle_frame ([(⟨"RGB", 640, 480⟩ : Img)]).length, fr) :=
  extractMidFrame_mid_index.1 [⟨"RGB", 640, 480⟩] (by decide)

/-- The index found by `lastDotIdx` carries a dot. -/
theorem lastDotIdx_get {l : List Char} {i : Nat} (h : lastDotIdx l = some i) :
    l.get? i = some '.' := by
  unfold lastDotIdx at h
  have hmem : i ∈ (List.range l.length).filter (fun j => l.get? j == some '.') :=
    List.mem_of_mem_getLast? h
  have hp := (List.mem_filter.mp hmem).2
  simpa using hp

/-- Claim C7 counterexample: for the extensionless filename README the
allocator returns the empty extension and the upload pipeline proceeds to a
successful media row — no InvalidUpload-style error is raised, refuting the
claim that a missing extension fails the operation. -/
theorem no_extension_proceeds_counterexample :
    (generate_filename "b" "README").2 = "" ∧
    (upload_media noFaults .photo "b" (generate_filename "b" "README").2
      demoContent emptySt).1.isOk = true := by
  constructor
  · decide
  · decide

/-- Claim C7 amended: extension extraction returns the lowercased pathlib
suffix of the uploaded filename including the leading dot when one is
present; when the filename has no suffix the extraction returns the empty
string and the upload proceeds with an extensionless base name instead of
failing with an error. -/
theorem generate_filename_ext_amended :
    (∀ uniqueName original : String,
      generate_filename uniqueName original =
        (uniqueName, strLower (path_suffix original))) ∧
    (∀ s : String,
      path_suffix s = "" ∨ (path_suffix s).data.head? = some '.') ∧
    (generate_filename "u" "IMG.JPEG").2 = ".jpeg" ∧
    (generate_filename "u" "README").2 = "" ∧
    (upload_media noFaults .photo "b" (generate_filename "u" "README").2
      demoContent emptySt).1.isOk = true := by
  refine ⟨fun _ _ => rfl, ?_, by decide, by decide, by decide⟩
  intro s
  rcases h : lastDotIdx (pathName s).data with _ | i
  · left
    simp [path_suffix, h]
  · by_cases hc : 0 < i ∧ i < (pathName s).data.length - 1
    · right
      have hget := lastDotIdx_get h
      rw [List.get?_eq_getElem?] at hget
      simp only [path_suffix, h, if_pos hc]
      show ((pathName s).data.drop i).head? = some '.'
      rw [List.head?_drop]
      exact hget
    · left
      simp only [path_suffix, h]
      rw [if_neg hc]

/-! Bounds for the PIL rounding step. -/

theorem round_aspect_ge_one (q : ℚ) (key : ℤ → ℚ) : 1 ≤ round_aspect q key :=
  le_max_right _ _

theorem round_aspect_le {n : ℤ} (q : ℚ) (key : ℤ → ℚ) (h1 : 1 ≤ n)
    (h2 : q ≤ (n : ℚ)) : round_aspect q key ≤ n := by
  have hf : ⌊q⌋ ≤ n := by
    have h3 := Int.floor_le_floor h2
    simpa using h3
  have hc : ⌈q⌉ ≤ n := Int.ceil_le.mpr h2
  unfold round_aspect
  split_ifs with hk
  · exact max_le hf h1
  · exact max_le hc h1

theorem round_aspect_close (q : ℚ) (key : ℤ → ℚ) (h : 0 ≤ q) :
    |((round_aspect q key : ℤ) : ℚ) - q| ≤ 1 := by
  have hfl : (⌊q⌋ : ℚ) ≤ q := Int.floor_le q
  have hfg : q < (⌊q⌋ : ℚ) + 1 := Int.lt_floor_add_one q
  have hcl : q ≤ (⌈q⌉ : ℚ) := Int.le_ceil q
  have hcg : (⌈q⌉ : ℚ) < q + 1 := Int.ceil_lt_add_one q
  have hf0 : (0 : ℤ) ≤ ⌊q⌋ := Int.floor_nonneg.mpr h
  unfold round_aspect
  split_ifs with hk
  · rcases le_or_lt 1 ⌊q⌋ with h1 | h1
    · rw [max_eq_left h1, abs_le]
      constructor <;> linarith
    · have h0 : ⌊q⌋ = 0 := by omega
      rw [max_eq_right (by omega)]
      have hq1 : q < 1 := by
        rw [h0] at hfg
        push_cast at hfg
        linarith
      rw [abs_le]
      push_cast
      constructor <;> linarith
  · rcases le_or_lt 1 ⌈q⌉ with h1 | h1
    · rw [max_eq_left h1, abs_le]
      constructor <;> linarith
    · have hc0 : (0 : ℤ) ≤ ⌈q⌉ := le_trans hf0 (Int.floor_le_ceil q)
      have h0 : ⌈q⌉ = 0 := by omega
      rw [max_eq_right (by omega)]
      have hq0 : q ≤ 0 := by
        rw [h0] at hcl
        push_cast at hcl
        linarith
      rw [abs_le]
      push_cast
      constructor <;> linarith

/-- Claim C2 counterexample: for a 10 × 2 source in a 7 × 7 bounding box the
code (the PIL thumbnail computation called by resize_image) produces 7 × 2,
while the size formula claimed by the spec, round(w*s) × round(h*s) with
s = min(maxW/w, maxH/h, 1), gives 7 × 1 — the claimed exact formula does not
describe the code. -/
theorem resize_size_formula_counterexample :
    thumbnail_size 10 2 7 7 = (7, 2) ∧ spec_resize_size 10 2 7 7 = (7, 1) ∧
    thumbnail_size 10 2 7 7 ≠ spec_resize_size 10 2 7 7 := by
  have h1 : thumbnail_size 10 2 7 7 = (7, 2) := by
    have hf : ⌊(7 : ℚ)/5⌋ = 1 := by norm_num
    have hc : ⌈(7 : ℚ)/5⌉ = 2 := by
      rw [Int.ceil_eq_iff] <;> norm_num
    have habs : |(3 : ℚ)/2| = 3/2 := abs_of_pos (by norm_num)
    norm_num [thumbnail_size, round_aspect, hf, hc, habs]
    rfl
  have h2 : spec_resize_size 10 2 7 7 = (7, 1) := by
    norm_num [spec_resize_size, round_eq]
    rfl
  refine ⟨h1, h2, ?_⟩
  rw [h1, h2]
  decide

set_option maxHeartbeats 1000000 in
/-- Claim C2 amended: for every source size and bounding box (all positive),
the resize output never exceeds the box in either dimension, never upscales
beyond the source resolution, and keeps each dimension within one pixel of
the exact scaled value w*s respectively h*s for s = min(maxW/w, maxH/h, 1)
(the box-bound dimension is exact; the free dimension is the floor or the
ceiling of the exact value, whichever minimizes the aspect error, which can
differ from round-half-up); a 4000 × 3000 source in a (300, 300) box yields
exactly 300 × 225. -/
theorem resize_size_amended (w h x0 y0 : Nat)
    (hw : 0 < w) (hh : 0 < h) (hx : 0 < x0) (hy : 0 < y0) :
    (thumbnail_size w h x0 y0).1 ≤ x0 ∧
    (thumbnail_size w h x0 y0).2 ≤ y0 ∧
    (thumbnail_size w h x0 y0).1 ≤ w ∧
    (thumbnail_size w h x0 y0).2 ≤ h ∧
    |((thumbnail_size w h x0 y0).1 : ℚ) -
      (w : ℚ) * min (min ((x0 : ℚ) / (w : ℚ)) ((y0 : ℚ) / (h : ℚ))) 1| ≤ 1 ∧
    |((thumbnail_size w h x0 y0).2 : ℚ) -
      (h : ℚ) * min (min ((x0 : ℚ) / (w : ℚ)) ((y0 : ℚ) / (h : ℚ))) 1| ≤ 1 ∧
    thumbnail_size 4000 3000 300 300 = (300, 225) := by
  have hconc : thumbnail_size 4000 3000 300 300 = (300, 225) := by
    have hf : ⌊(225 : ℚ)⌋ = 225 := by norm_num
    have hc : ⌈(225 : ℚ)⌉ = 225 := by norm_num [Int.ceil_intCast]
    norm_num [thumbnail_size, round_aspect, hf, hc]
    rfl
  have hwq : (0 : ℚ) < (w : ℚ) := by exact_mod_cast hw
  have hhq : (0 : ℚ) < (h : ℚ) := by exact_mod_cast hh
  have hxq : (0 : ℚ) < (x0 : ℚ) := by exact_mod_cast hx
  have hyq : (0 : ℚ) < (y0 : ℚ) := by exact_mod_cast hy
  have main :
      (thumbnail_size w h x0 y0).1 ≤ x0 ∧
      (thumbnail_size w h x0 y0).2 ≤ y0 ∧
      (thumbnail_size w h x0 y0).1 ≤ w ∧
      (thumbnail_size w h x0 y0).2 ≤ h ∧
      |((thumbnail_size w h x0 y0).1 : ℚ) -
        (w : ℚ) * min (min ((x0 : ℚ) / (w : ℚ)) ((y0 : ℚ) / (h : ℚ))) 1| ≤ 1 ∧
      |((thumbnail_size w h x0 y0).2 : ℚ) -
        (h : ℚ) * min (min ((x0 : ℚ) / (w : ℚ)) ((y0 : ℚ) / (h : ℚ))) 1| ≤ 1 := by
    unfold thumbnail_size
    by_cases he : x0 ≥ w ∧ y0 ≥ h
    · rw [if_pos he]
      have h1 : (1 : ℚ) ≤ (x0 : ℚ) / (w : ℚ) :=
        (one_le_div hwq).mpr (by exact_mod_cast he.1)
      have h2 : (1 : ℚ) ≤ (y0 : ℚ) / (h : ℚ) :=
        (one_le_div hhq).mpr (by exact_mod_cast he.2)
      have hs : min (min ((x0 : ℚ) / (w : ℚ)) ((y0 : ℚ) / (h : ℚ))) 1 = 1 :=
        min_eq_right (le_min h1 h2)
      rw [hs]
      refine ⟨he.1, he.2, le_refl _, le_refl _, ?_, ?_⟩ <;> simp
    · rw [if_neg he]
      by_cases hbr : (x0 : ℚ) / (y0 : ℚ) ≥ (w : ℚ) / (h : ℚ)
      · rw [if_pos hbr]
        have hcross : (w : ℚ) * (y0 : ℚ) ≤ (x0 : ℚ) * (h : ℚ) := by
          rw [ge_iff_le, div_le_div_iff hhq hyq] at hbr
          linarith
        have hy0h : y0 ≤ h := by
          by_contra hgt
          push_neg at hgt
          have hq : (h : ℚ) < (y0 : ℚ) := by exact_mod_cast hgt
          have hs1 : (w : ℚ) * (h : ℚ) < (w : ℚ) * (y0 : ℚ) := by nlinarith
          have hs2 : (w : ℚ) * (h : ℚ) < (x0 : ℚ) * (h : ℚ) :=
            lt_of_lt_of_le hs1 hcross
          have hwx : (w : ℚ) < (x0 : ℚ) := lt_of_mul_lt_mul_right hs2 hhq.le
          have hwx2 : w ≤ x0 := by exact_mod_cast hwx.le
          exact he ⟨hwx2, hgt.le⟩
        have hy0hq : (y0 : ℚ) ≤ (h : ℚ) := by exact_mod_cast hy0h
        have hmin1 : (y0 : ℚ) / (h : ℚ) ≤ (x0 : ℚ) / (w : ℚ) := by
          rw [div_le_div_iff hhq hwq]
          nlinarith
        have hy1 : (y0 : ℚ) / (h : ℚ) ≤ 1 := by
          rw [div_le_one hhq]
          exact hy0hq
        have hs : min (min ((x0 : ℚ) / (w : ℚ)) ((y0 : ℚ) / (h : ℚ))) 1 =
            (y0 : ℚ) / (h : ℚ) := by
          rw [min_eq_right hmin1, min_eq_left hy1]
        have hq_eq : (y0 : ℚ) * ((w : ℚ) / (h : ℚ)) =
            (w : ℚ) * ((y0 : ℚ) / (h : ℚ)) := by ring
        have hq0 : (0 : ℚ) ≤ (y0 : ℚ) * ((w : ℚ) / (h : ℚ)) := by positivity
        have hqle : (y0 : ℚ) * ((w : ℚ) / (h : ℚ)) ≤ (x0 : ℚ) := by
          rw [← mul_div_assoc, div_le_iff hhq]
          nlinarith
        have hqlew : (y0 : ℚ) * ((w : ℚ) / (h : ℚ)) ≤ (w : ℚ) := by
          rw [← mul_div_assoc, div_le_iff hhq]
          nlinarith
        set X := round_aspect ((y0 : ℚ) * ((w : ℚ) / (h : ℚ)))
          (fun n => |(w : ℚ) / (h : ℚ) - (n : ℚ) / (y0 : ℚ)|) with hXdef
        have hxle : X ≤ (x0 : ℤ) := by
          rw [hXdef]
          exact round_aspect_le _ _ (by exact_mod_cast hx)
            (by push_cast; exact hqle)
        have hxlew : X ≤ (w : ℤ) := by
          rw [hXdef]
          exact round_aspect_le _ _ (by exact_mod_cast hw)
            (by push_cast; exact hqlew)
        have hxge : 1 ≤ X := by
          rw [hXdef]
          exact round_aspect_ge_one _ _
        have hclose : |(X : ℚ) - (y0 : ℚ) * ((w : ℚ) / (h : ℚ))| ≤ 1 := by
          rw [hXdef]
          exact round_aspect_close _ _ hq0
        have hnn : (0 : ℤ) ≤ X := by omega
        have hcast : ((X.toNat : ℕ) : ℚ) = (X : ℚ) := by
          have h1 : ((X.toNat : ℤ) : ℚ) = (X : ℚ) := by
            rw [Int.toNat_of_nonneg hnn]
          rw [← h1]
          exact (Int.cast_natCast _).symm
        refine ⟨Int.toNat_le.mpr hxle, le_refl _, Int.toNat_le.mpr hxlew,
          hy0h, ?_, ?_⟩
        · rw [hs]
          show |((X.toNat : ℕ) : ℚ) - (w : ℚ) * ((y0 : ℚ) / (h : ℚ))| ≤ 1
          rw [hcast, ← hq_eq]
          exact hclose
        · rw [hs]
          show |((y0 : ℕ) : ℚ) - (h : ℚ) * ((y0 : ℚ) / (h : ℚ))| ≤ 1
          have hcancel : (h : ℚ) * ((y0 : ℚ) / (h : ℚ)) = (y0 : ℚ) := by
            field_simp
          rw [hcancel]
          simp
      · rw [if_neg hbr]
        push_neg at hbr
        have hcross : (x0 : ℚ) * (h : ℚ) < (w : ℚ) * (y0 : ℚ) := by
          rw [div_lt_div_iff hyq hhq] at hbr
          linarith
        have hx0w : x0 ≤ w := by
          by_contra hgt
          push_neg at hgt
          have hq : (w : ℚ) < (x0 : ℚ) := by exact_mod_cast hgt
          have hs1 : (w : ℚ) * (h : ℚ) < (x0 : ℚ) * (h : ℚ) := by nlinarith
          have hs2 : (w : ℚ) * (h : ℚ) < (w : ℚ) * (y0 : ℚ) :=
            lt_trans hs1 hcross
          have hhy : (h : ℚ) < (y0 : ℚ) := lt_of_mul_lt_mul_left hs2 hwq.le
          have hhy2 : h ≤ y0 := by exact_mod_cast hhy.le
          exact he ⟨hgt.le, hhy2⟩
        have hx0wq : (x0 : ℚ) ≤ (w : ℚ) := by exact_mod_cast hx0w
        have hmin2 : (x0 : ℚ) / (w : ℚ) ≤ (y0 : ℚ) / (h : ℚ) := by
          rw [div_le_div_iff hwq hhq]
          nlinarith
        have hx1 : (x0 : ℚ) / (w : ℚ) ≤ 1 := by
          rw [div_le_one hwq]
          exact hx0wq
        have hs : min (min ((x0 : ℚ) / (w : ℚ)) ((y0 : ℚ) / (h : ℚ))) 1 =
            (x0 : ℚ) / (w : ℚ) := by
          rw [min_eq_left hmin2, min_eq_left hx1]
        have hq2 : (x0 : ℚ) / ((w : ℚ) / (h : ℚ)) =
            (h : ℚ) * ((x0 : ℚ) / (w : ℚ)) := by
          rw [div_div_eq_mul_div]
          ring
        have hq0 : (0 : ℚ) ≤ (x0 : ℚ) / ((w : ℚ) / (h : ℚ)) := by positivity
        have hqley : (x0 : ℚ) / ((w : ℚ) / (h : ℚ)) ≤ (y0 : ℚ) := by
          rw [hq2]
          calc (h : ℚ) * ((x0 : ℚ) / (w : ℚ))
              ≤ (h : ℚ) * ((y0 : ℚ) / (h : ℚ)) :=
                mul_le_mul_of_nonneg_left hmin2 hhq.le
            _ = (y0 : ℚ) := by field_simp
        have hqleh : (x0 : ℚ) / ((w : ℚ) / (h : ℚ)) ≤ (h : ℚ) := by
          rw [hq2]
          calc (h : ℚ) * ((x0 : ℚ) / (w : ℚ)) ≤ (h : ℚ) * 1 :=
                mul_le_mul_of_nonneg_left hx1 hhq.le
            _ = (h : ℚ) := by ring
        set Y := round_aspect ((x0 : ℚ) / ((w : ℚ) / (h : ℚ)))
          (fun n => if n = 0 then 0
            else |(w : ℚ) / (h : ℚ) - (x0 : ℚ) / (n : ℚ)|) with hYdef
        have hyle : Y ≤ (y0 : ℤ) := by
          rw [hYdef]
          exact round_aspect_le _ _ (by exact_mod_cast hy)
            (by push_cast; exact hqley)
        have hyleh : Y ≤ (h : ℤ) := by
          rw [hYdef]
          exact round_aspect_le _ _ (by exact_mod_cast hh)
            (by push_cast; exact hqleh)
        have hyge : 1 ≤ Y := by
          rw [hYdef]
          exact round_aspect_ge_one _ _
        have hclose : |(Y : ℚ) - (x0 : ℚ) / ((w : ℚ) / (h : ℚ))| ≤ 1 := by
          rw [hYdef]
          exact round_aspect_close _ _ hq0
        have hnn : (0 : ℤ) ≤ Y := by omega
        have hcast : ((Y.toNat : ℕ) : ℚ) = (Y : ℚ) := by
          have h1 : ((Y.toNat : ℤ) : ℚ) = (Y : ℚ) := by
            rw [Int.toNat_of_nonneg hnn]
          rw [← h1]
          exact (Int.cast_natCast _).symm
        refine ⟨le_refl _, Int.toNat_le.mpr hyle, hx0w,
          Int.toNat_le.mpr hyleh, ?_, ?_⟩
        · rw [hs]
          show |((x0 : ℕ) : ℚ) - (w : ℚ) * ((x0 : ℚ) / (w : ℚ))| ≤ 1
          have hcancel : (w : ℚ) * ((x0 : ℚ) / (w : ℚ)) = (x0 : ℚ) := by
            field_simp
          rw [hcancel]
          simp
        · rw [hs]
          show |((Y.toNat : ℕ) : ℚ) - (h : ℚ) * ((x0 : ℚ) / (w : ℚ))| ≤ 1
          rw [hcast, ← hq2]
          exact hclose
  exact ⟨main.1, main.2.1, main.2.2.1, main.2.2.2.1, main.2.2.2.2.1,
    main.2.2.2.2.2, hconc⟩

/-- Witness for C2 amended at the concrete 4000 × 3000 source. -/
theorem resize_size_amended_witness :
    (thumbnail_size 4000 3000 300 300).1 ≤ 300 ∧
    thumbnail_size 4000 3000 300 300 = (300, 225) :=
  ⟨(resize_size_amended 4000 3000 300 300 (by norm_num) (by norm_num)
      (by norm_num) (by norm_num)).1,
   (resize_size_amended 4000 3000 300 300 (by norm_num) (by norm_num)
      (by norm_num) (by norm_num)).2.2.2.2.2.2⟩

/-- Claim C4: for every successful photo upload, the stored original variant
file is a byte-identical copy of the uploaded source (the stored content is
the source content itself, never a re-encoded value). -/
theorem original_variant_byte_identical (f : Faults) (base ext : String)
    (content : Content) (st : St)
    (h1 : f.saveTempFails = false) (h2 : f.copyOriginalFails = false)
    (h3 : "thumb" ∉ f.failingVariants) (h4 : "medium" ∉ f.failingVariants)
    (h5 : "large" ∉ f.failingVariants) (h6 : f.dbFails = false) :
    ∃ row st2, upload_media f .photo base ext content st = (.ok row, st2) ∧
      fsLookup st2.fs (osJoin UPLOAD_DIR (variant_filename base "original" ext))
        = some content := by
  have nOT : variant_filename base "thumb" ext ≠
      variant_filename base "original" ext := vf_ne_vf base ext (by decide)
  have nOM : variant_filename base "medium" ext ≠
      variant_filename base "original" ext := vf_ne_vf base ext (by decide)
  have nOL : variant_filename base "large" ext ≠
      variant_filename base "original" ext := vf_ne_vf base ext (by decide)
  have nOT2 : variant_filename base "original" ext ≠ temp_filename base ext :=
    vf_ne_temp base ext "original" (by decide)
  have pOT : osJoin UPLOAD_DIR (variant_filename base "thumb" ext) ≠
      osJoin UPLOAD_DIR (variant_filename base "original" ext) := osJoin_ne nOT
  have pOM : osJoin UPLOAD_DIR (variant_filename base "medium" ext) ≠
      osJoin UPLOAD_DIR (variant_filename base "original" ext) := osJoin_ne nOM
  have pOL : osJoin UPLOAD_DIR (variant_filename base "large" ext) ≠
      osJoin UPLOAD_DIR (variant_filename base "original" ext) := osJoin_ne nOL
  have pOT2 : osJoin UPLOAD_DIR (variant_filename base "original" ext) ≠
      osJoin UPLOAD_DIR (temp_filename base ext) := osJoin_ne nOT2
  unfold upload_media
  rw [h1]
  simp only [Bool.false_eq_true, if_false]
  rw [create_image_variants_ok f base ext _ content _ (by simp) h2 h3 h4 h5]
  simp only [h6, Bool.false_eq_true, if_false]
  refine ⟨_, _, rfl, ?_⟩
  rw [fsLookup_stRemoveIfExists_ne _ pOT2]
  simp only [stWrite_fs]
  rw [fsLookup_write_ne _ _ pOL.symm, fsLookup_write_ne _ _ pOM.symm,
    fsLookup_write_ne _ _ pOT.symm, fsLookup_write_self]

/-- Witness for C4 at a concrete fault-free upload. -/
theorem original_variant_byte_identical_witness :
    ∃ row st2, upload_media noFaults .photo "b" ".jpg" demoContent emptySt =
      (.ok row, st2) ∧
      fsLookup st2.fs (osJoin UPLOAD_DIR (variant_filename "b" "original" ".jpg"))
        = some demoContent :=
  original_variant_byte_identical noFaults "b" ".jpg" demoContent emptySt
    rfl rfl (by decide) (by decide) (by decide) rfl

/-- Claim C5 counterexample: in a fault-free photo run the original copy is
the first variant file written, not the last — the actual write order of
create_image_variants is original, thumb, medium, large, refuting the
claimed order thumb, medium, large, original. -/
theorem photo_write_order_counterexample :
    writesOf ((create_image_variants noFaults "uploads/media/t" "b" ".jpg"
        ⟨[("uploads/media/t", demoContent)], []⟩).2.trace) =
      ["uploads/media/b_original.jpg", "uploads/media/b_thumb.jpg",
       "uploads/media/b_medium.jpg", "uploads/media/b_large.jpg"] ∧
    writesOf ((create_image_variants noFaults "uploads/media/t" "b" ".jpg"
        ⟨[("uploads/media/t", demoContent)], []⟩).2.trace) ≠
      ["uploads/media/b_thumb.jpg", "uploads/media/b_medium.jpg",
       "uploads/media/b_large.jpg", "uploads/media/b_original.jpg"] := by
  constructor
  · decide
  · decide

set_option maxHeartbeats 800000 in
/-- Claim C5 amended: for every successful photo upload the files are written
in the fixed order temp file, original copy, thumb, medium, large, with the
temp file removed at the end; for every successful video upload the temp file
is written and renamed into the stored video first, then the temporary frame
JPEG and the four thumbnail sizes thumb, medium, large, original follow, with
the temporary frame JPEG removed at the end. -/
theorem variant_write_order_amended (f : Faults) (base ext : String)
    (content : Content) (frameImg : Img) (st : St)
    (h1 : f.saveTempFails = false) (h2 : f.copyOriginalFails = false)
    (h3 : "thumb" ∉ f.failingVariants) (h4 : "medium" ∉ f.failingVariants)
    (h5 : "large" ∉ f.failingVariants) (h6 : "original" ∉ f.failingVariants)
    (h7 : f.dbFails = false) (h8 : f.videoOpenFails = false)
    (h9 : f.frameReadFails = false) (h10 : f.tempThumbSaveFails = false)
    (h11 : f.videoFrames.get? (middle_frame f.videoFrames.length) =
      some frameImg) :
    (upload_media f .photo base ext content st).2.trace =
      st.trace ++
        [FsEvent.write (osJoin UPLOAD_DIR (temp_filename base ext)),
         FsEvent.write (osJoin UPLOAD_DIR (variant_filename base "original" ext)),
         FsEvent.write (osJoin UPLOAD_DIR (variant_filename base "thumb" ext)),
         FsEvent.write (osJoin UPLOAD_DIR (variant_filename base "medium" ext)),
         FsEvent.write (osJoin UPLOAD_DIR (variant_filename base "large" ext)),
         FsEvent.remove (osJoin UPLOAD_DIR (temp_filename base ext))] ∧
    (upload_media f .video base ext content st).2.trace =
      st.trace ++
        [FsEvent.write (osJoin UPLOAD_DIR (temp_filename base ext)),
         FsEvent.rename (osJoin UPLOAD_DIR (temp_filename base ext))
           (osJoin UPLOAD_DIR (video_filename base ext)),
         FsEvent.write (osJoin UPLOAD_DIR (temp_thumbnail_filename base)),
         FsEvent.write (osJoin UPLOAD_DIR (thumbnail_variant_filename base "thumb")),
         FsEvent.write (osJoin UPLOAD_DIR (thumbnail_variant_filename base "medium")),
         FsEvent.write (osJoin UPLOAD_DIR (thumbnail_variant_filename base "large")),
         FsEvent.write (osJoin UPLOAD_DIR (thumbnail_variant_filename base "original")),
         FsEvent.remove (osJoin UPLOAD_DIR (temp_thumbnail_filename base))] := by
  constructor
  · -- photo half
    have nTO : variant_filename base "original" ext ≠ temp_filename base ext :=
      vf_ne_temp base ext "original" (by decide)
    have nTT : variant_filename base "thumb" ext ≠ temp_filename base ext :=
      vf_ne_temp base ext "thumb" (by decide)
    have nTM : variant_filename base "medium" ext ≠ temp_filename base ext :=
      vf_ne_temp base ext "medium" (by decide)
    have nTL : variant_filename base "large" ext ≠ temp_filename base ext :=
      vf_ne_temp base ext "large" (by decide)
    have pTO : osJoin UPLOAD_DIR (temp_filename base ext) ≠
        osJoin UPLOAD_DIR (variant_filename base "original" ext) :=
      osJoin_ne (fun he => nTO he.symm)
    have pTT : osJoin UPLOAD_DIR (temp_filename base ext) ≠
        osJoin UPLOAD_DIR (variant_filename base "thumb" ext) :=
      osJoin_ne (fun he => nTT he.symm)
    have pTM : osJoin UPLOAD_DIR (temp_filename base ext) ≠
        osJoin UPLOAD_DIR (variant_filename base "medium" ext) :=
      osJoin_ne (fun he => nTM he.symm)
    have pTL : osJoin UPLOAD_DIR (temp_filename base ext) ≠
        osJoin UPLOAD_DIR (variant_filename base "large" ext) :=
      osJoin_ne (fun he => nTL he.symm)
    unfold upload_media
    rw [h1]
    simp only [Bool.false_eq_true, if_false]
    rw [create_image_variants_ok f base ext _ content _ (by simp) h2 h3 h4 h5]
    dsimp only
    rw [h7]
    simp only [Bool.false_eq_true, if_false]
    have hex : fsExists (stWrite (stWrite (stWrite (stWrite (stWrite st
        (osJoin UPLOAD_DIR (temp_filename base ext)) content)
        (osJoin UPLOAD_DIR (variant_filename base "original" ext)) content)
        (osJoin UPLOAD_DIR (variant_filename base "thumb" ext))
        (Content.encoded (resize_image (contentImg content) (300, 300))
          (save_format ext) 85))
        (osJoin UPLOAD_DIR (variant_filename base "medium" ext))
        (Content.encoded (resize_image (contentImg content) (800, 800))
          (save_format ext) 85))
        (osJoin UPLOAD_DIR (variant_filename base "large" ext))
        (Content.encoded (resize_image (contentImg content) (1200, 1200))
          (save_format ext) 85)).fs
        (osJoin UPLOAD_DIR (temp_filename base ext)) = true := by
      simp only [stWrite_fs, fsExists]
      rw [fsLookup_write_ne _ _ pTL, fsLookup_write_ne _ _ pTM,
        fsLookup_write_ne _ _ pTT, fsLookup_write_ne _ _ pTO,
        fsLookup_write_self]
      rfl
    rw [stRemoveIfExists_of_exists hex]
    simp [List.append_assoc]
  · -- video half
    unfold upload_media
    rw [h1]
    simp only [Bool.false_eq_true, if_false]
    rw [show stRename (stWrite st (osJoin UPLOAD_DIR (temp_filename base ext))
        content) (osJoin UPLOAD_DIR (temp_filename base ext))
        (osJoin UPLOAD_DIR (video_filename base ext)) =
      { fs := fsWrite (fsErase (fsWrite st.fs
          (osJoin UPLOAD_DIR (temp_filename base ext)) content)
          (osJoin UPLOAD_DIR (temp_filename base ext)))
          (osJoin UPLOAD_DIR (video_filename base ext)) content,
        trace := (st.trace ++
          [FsEvent.write (osJoin UPLOAD_DIR (temp_filename base ext))]) ++
          [FsEvent.rename (osJoin UPLOAD_DIR (temp_filename base ext))
            (osJoin UPLOAD_DIR (video_filename base ext))] } from by
      simp [stRename, stWrite]]
    rw [create_video_thumbnail_variants_ok f base _ frameImg _ h8 h9 h10 h11
      h3 h4 h5 h6]
    dsimp only
    rw [h7]
    simp only [Bool.false_eq_true, if_false]
    simp [List.append_assoc]

/-- Witness for C5 amended at a concrete fault-free upload. -/
theorem variant_write_order_amended_witness :
    (upload_media noFaults .photo "b" ".jpg" demoContent emptySt).2.trace =
      emptySt.trace ++
        [FsEvent.write (osJoin UPLOAD_DIR (temp_filename "b" ".jpg")),
         FsEvent.write (osJoin UPLOAD_DIR (variant_filename "b" "original" ".jpg")),
         FsEvent.write (osJoin UPLOAD_DIR (variant_filename "b" "thumb" ".jpg")),
         FsEvent.write (osJoin UPLOAD_DIR (variant_filename "b" "medium" ".jpg")),
         FsEvent.write (osJoin UPLOAD_DIR (variant_filename "b" "large" ".jpg")),
         FsEvent.remove (osJoin UPLOAD_DIR (temp_filename "b" ".jpg"))] :=
  (variant_write_order_amended noFaults "b" ".jpg" demoContent
    ⟨"RGB", 1, 1⟩ emptySt rfl rfl (by decide) (by decide) (by decide)
    (by decide) rfl rfl rfl rfl (by decide)).1

/-- Claim C6 counterexample: when the medium variant write fails, the
cleanup handler removes the files recorded so far in creation order —
original and then thumb — not in reverse-creation order as claimed. -/
theorem cleanup_order_counterexample :
    removesOf ((create_image_variants
        { noFaults with failingVariants := ["medium"] }
        "uploads/media/t" "b" ".jpg"
        ⟨[("uploads/media/t", demoContent)], []⟩).2.trace) =
      ["uploads/media/b_original.jpg", "uploads/media/b_thumb.jpg"] ∧
    removesOf ((create_image_variants
        { noFaults with failingVariants := ["medium"] }
        "uploads/media/t" "b" ".jpg"
        ⟨[("uploads/media/t", demoContent)], []⟩).2.trace) ≠
      ["uploads/media/b_thumb.jpg", "uploads/media/b_original.jpg"] := by
  constructor
  · decide
  · decide

/-- Claim C6 amended: when any step of a variant-building run fails, the
cleanup guard deletes the tracked created files in creation (tracking)
order — not reverse — restoring the directory to its pre-run contents, it
silently skips any tracked path that no longer exists (the removal is
guarded by an existence check and changes nothing when the file is absent),
and it raises an HTTP 500 error wrapping the original triggering message
after cleanup finishes. -/
theorem cleanup_guard_amended (f : Faults) (base ext srcPath : String)
    (src : Content) (st : St) (hsrc : fsLookup st.fs srcPath = some src)
    (hfO : fsLookup st.fs
      (osJoin UPLOAD_DIR (variant_filename base "original" ext)) = none)
    (hfT : fsLookup st.fs
      (osJoin UPLOAD_DIR (variant_filename base "thumb" ext)) = none)
    (hfM : fsLookup st.fs
      (osJoin UPLOAD_DIR (variant_filename base "medium" ext)) = none)
    (hfail : f.copyOriginalFails = true ∨ "thumb" ∈ f.failingVariants ∨
             "medium" ∈ f.failingVariants ∨ "large" ∈ f.failingVariants) :
    (∃ (msg : String) (created : List String),
      create_image_variants f srcPath base ext st =
        (.error (.http 500 ("Failed to create image variants: " ++ msg)),
         { fs := st.fs,
           trace := st.trace ++ created.map FsEvent.write ++
             created.map FsEvent.remove })) ∧
    (∀ (s : St) (p : String), fsExists s.fs p = false →
      stRemoveIfExists s p = s) :=
  ⟨create_image_variants_err f base ext srcPath src st hsrc hfO hfT hfM hfail,
   fun _ _ h => stRemoveIfExists_of_missing h⟩

/-- Witness for C6 amended at a concrete run with a failing medium write. -/
theorem cleanup_guard_amended_witness :
    (∃ (msg : String) (created : List String),
      create_image_variants { noFaults with failingVariants := ["medium"] }
          "uploads/media/t" "b" ".jpg"
          ⟨[("uploads/media/t", demoContent)], []⟩ =
        (.error (.http 500 ("Failed to create image variants: " ++ msg)),
         { fs := (⟨[("uploads/media/t", demoContent)], []⟩ : St).fs,
           trace := (⟨[("uploads/media/t", demoContent)], []⟩ : St).trace ++
             created.map FsEvent.write ++ created.map FsEvent.remove })) ∧
    (∀ (s : St) (p : String), fsExists s.fs p = false →
      stRemoveIfExists s p = s) :=
  cleanup_guard_amended { noFaults with failingVariants := ["medium"] }
    "b" ".jpg" "uploads/media/t" demoContent
    ⟨[("uploads/media/t", demoContent)], []⟩
    (by decide) (by decide) (by decide) (by decide)
    (Or.inr (Or.inr (Or.inl (by decide))))

/-- Claim C1 evaluated at the failing input (code bug): a video upload that
fails at the database-record step leaves the stored video file in the upload
directory.  The except-handler of the upload handler sees a truthy
filename_variants dict, removes only the four thumbnail variants, and the
elif branch that would remove file_path — the renamed video — is skipped, so
a file attributable to the failed run survives. -/
theorem video_db_failure_leaves_video_file :
    (upload_media { noFaults with dbFails := true } .video "b" ".mp4"
        demoContent emptySt).1 =
      .error (.http 500 ("Failed to create media record: " ++ dbFailMsg)) ∧
    (upload_media { noFaults with dbFails := true } .video "b" ".mp4"
        demoContent emptySt).2.fs =
      [(osJoin UPLOAD_DIR (video_filename "b" ".mp4"), demoContent)] := by
  constructor
  · decide
  · decide

/-! Preservation lemmas: each builder only ever touches the run filenames,
so a lookup at any other path is unchanged by a run, successful or not. -/

theorem imageSizeLoop_lookup_preserved (f : Faults) (srcImg : Img)
    (base ext q : String) :
    ∀ (sizes : List (String × Option (Nat × Nat)))
      (variants : List (String × String)) (st : St),
      (∀ s ∈ sizes, q ≠ osJoin UPLOAD_DIR (variant_filename base s.1 ext)) →
      fsLookup (imageSizeLoop f srcImg base ext sizes variants st).2.2.fs q =
        fsLookup st.fs q := by
  intro sizes
  induction sizes with
  | nil =>
    intro variants st _
    rfl
  | cons s rest ih =>
    intro variants st hq
    obtain ⟨sizeName, dims⟩ := s
    unfold imageSizeLoop
    by_cases h1 : sizeName = "original"
    · rw [if_pos h1]
      exact ih _ _ (fun x hx => hq x (List.mem_cons_of_mem _ hx))
    · rw [if_neg h1]
      by_cases h2 : sizeName ∈ f.failingVariants
      · rw [if_pos h2]
      · rw [if_neg h2]
        rw [ih _ _ (fun x hx => hq x (List.mem_cons_of_mem _ hx))]
        exact fsLookup_write_ne _ _
          (hq (sizeName, dims) (List.mem_cons_self _ _))

theorem imageSizeLoop_variants_sub (f : Faults) (srcImg : Img)
    (base ext : String) :
    ∀ (sizes : List (String × Option (Nat × Nat)))
      (variants : List (String × String)) (st : St) (kv : String × String),
      kv ∈ (imageSizeLoop f srcImg base ext sizes variants st).2.1 →
      kv ∈ variants ∨ ∃ s ∈ sizes, kv.2 = variant_filename base s.1 ext := by
  intro sizes
  induction sizes with
  | nil =>
    intro variants st kv h
    exact Or.inl h
  | cons s rest ih =>
    intro variants st kv h
    obtain ⟨sizeName, dims⟩ := s
    unfold imageSizeLoop at h
    by_cases h1 : sizeName = "original"
    · rw [if_pos h1] at h
      rcases ih _ _ _ h with h2 | ⟨s2, hs2, he⟩
      · exact Or.inl h2
      · exact Or.inr ⟨s2, List.mem_cons_of_mem _ hs2, he⟩
    · rw [if_neg h1] at h
      by_cases h2 : sizeName ∈ f.failingVariants
      · rw [if_pos h2] at h
        exact Or.inl h
      · rw [if_neg h2] at h
        rcases ih _ _ _ h with h3 | ⟨s2, hs2, he⟩
        · rcases List.mem_append.mp h3 with h4 | h4
          · exact Or.inl h4
          · have h5 : kv = (sizeName, variant_filename base sizeName ext) := by
              simpa using h4
            exact Or.inr ⟨(sizeName, dims), List.mem_cons_self _ _,
              by rw [h5]⟩
        · exact Or.inr ⟨s2, List.mem_cons_of_mem _ hs2, he⟩

theorem cleanupVariants_lookup_preserved (q : String) :
    ∀ (variants : List (String × String)) (st : St),
      (∀ kv ∈ variants, q ≠ osJoin UPLOAD_DIR kv.2) →
      fsLookup (cleanupVariants st variants).fs q = fsLookup st.fs q := by
  intro variants
  induction variants with
  | nil =>
    intro st _
    rfl
  | cons kv rest ih =>
    intro st hq
    have hstep : cleanupVariants st (kv :: rest) =
        cleanupVariants (stRemoveIfExists st (osJoin UPLOAD_DIR kv.2)) rest :=
      rfl
    rw [hstep, ih _ (fun x hx => hq x (List.mem_cons_of_mem _ hx))]
    exact fsLookup_stRemoveIfExists_ne _ (hq kv (List.mem_cons_self _ _))

theorem sizes_name_mem (s : String × Option (Nat × Nat))
    (hs : s ∈ IMAGE_SIZES) : s.1 ∈ PHOTO_VARIANT_NAMES := by
  have h4 : s = ("thumb", some (300, 300)) ∨ s = ("medium", some (800, 800)) ∨
      s = ("large", some (1200, 1200)) ∨ s = ("original", none) := by
    simpa [IMAGE_SIZES] using hs
  rcases h4 with rfl | rfl | rfl | rfl <;> simp [PHOTO_VARIANT_NAMES]

theorem create_image_variants_lookup_preserved (f : Faults)
    (base ext srcPath q : String) (st : St)
    (hq : ∀ n ∈ PHOTO_VARIANT_NAMES,
      q ≠ osJoin UPLOAD_DIR (variant_filename base n ext)) :
    fsLookup (create_image_variants f srcPath base ext st).2.fs q =
      fsLookup st.fs q := by
  have hsz : ∀ s ∈ IMAGE_SIZES,
      q ≠ osJoin UPLOAD_DIR (variant_filename base s.1 ext) :=
    fun s hs => hq s.1 (sizes_name_mem s hs)
  unfold create_image_variants
  cases hsrc : fsLookup st.fs srcPath with
  | none => rfl
  | some src =>
    dsimp only
    by_cases hc : f.copyOriginalFails = true
    · rw [if_pos hc]
    · rw [if_neg hc]
      rcases hloop : imageSizeLoop f (contentImg src) base ext IMAGE_SIZES
        [("original", variant_filename base "original" ext)]
        (stWrite st (osJoin UPLOAD_DIR (variant_filename base "original" ext))
          src) with ⟨res, variants, st2⟩
      have hpres : fsLookup st2.fs q = fsLookup st.fs q := by
        have hp := imageSizeLoop_lookup_preserved f (contentImg src) base ext q
          IMAGE_SIZES [("original", variant_filename base "original" ext)]
          (stWrite st
            (osJoin UPLOAD_DIR (variant_filename base "original" ext)) src) hsz
        rw [hloop] at hp
        exact hp.trans (fsLookup_write_ne _ _
          (hq "original" (by simp [PHOTO_VARIANT_NAMES])))
      cases res with
      | ok u =>
        exact hpres
      | error msg =>
        dsimp only
        have hvars : ∀ kv ∈ variants, q ≠ osJoin UPLOAD_DIR kv.2 := by
          intro kv hkv
          have hsub := imageSizeLoop_variants_sub f (contentImg src) base ext
            IMAGE_SIZES [("original", variant_filename base "original" ext)]
            (stWrite st
              (osJoin UPLOAD_DIR (variant_filename base "original" ext)) src)
            kv (by rw [hloop]; exact hkv)
          rcases hsub with h4 | ⟨s2, hs2, he⟩
          · have h5 : kv = ("original", variant_filename base "original" ext) :=
              by simpa using h4
            rw [h5]
            exact hq "original" (by simp [PHOTO_VARIANT_NAMES])
          · rw [he]
            exact hsz s2 hs2
        rw [cleanupVariants_lookup_preserved q variants st2 hvars]
        exact hpres

theorem create_image_variants_ok_names (f : Faults) (base ext srcPath : String)
    (st : St) (variants : List (String × String)) (st1 : St)
    (h : create_image_variants f srcPath base ext st = (.ok variants, st1)) :
    ∀ kv ∈ variants, ∃ n ∈ PHOTO_VARIANT_NAMES,
      kv.2 = variant_filename base n ext := by
  intro kv hkv
  unfold create_image_variants at h
  cases hsrc : fsLookup st.fs srcPath with
  | none =>
    rw [hsrc] at h
    simp at h
  | some src =>
    rw [hsrc] at h
    dsimp only at h
    by_cases hc : f.copyOriginalFails = true
    · rw [if_pos hc] at h
      simp at h
    · rw [if_neg hc] at h
      rcases hloop : imageSizeLoop f (contentImg src) base ext IMAGE_SIZES
        [("original", variant_filename base "original" ext)]
        (stWrite st (osJoin UPLOAD_DIR (variant_filename base "original" ext))
          src) with ⟨res, vs, st2⟩
      rw [hloop] at h
      cases res with
      | error msg =>
        simp at h
      | ok u =>
        have hvs : vs = variants := by
          have := congrArg Prod.fst h
          simpa using this
        have hsub := imageSizeLoop_variants_sub f (contentImg src) base ext
          IMAGE_SIZES [("original", variant_filename base "original" ext)]
          (stWrite st
            (osJoin UPLOAD_DIR (variant_filename base "original" ext)) src)
          kv (by rw [hloop, hvs]; exact hkv)
        rcases hsub with h4 | ⟨s2, hs2, he⟩
        · have h5 : kv = ("original", variant_filename base "original" ext) :=
            by simpa using h4
          exact ⟨"original", by simp [PHOTO_VARIANT_NAMES], by rw [h5]⟩
        · exact ⟨s2.1, sizes_name_mem s2 hs2, he⟩

theorem thumbSizeLoop_lookup_preserved (f : Faults) (srcImg : Img)
    (srcContent : Content) (base q : String) :
    ∀ (sizes : List (String × Option (Nat × Nat)))
      (variants : List (String × String)) (st : St),
      (∀ s ∈ sizes, q ≠ osJoin UPLOAD_DIR (thumbnail_variant_filename base s.1)) →
      fsLookup
        (thumbSizeLoop f srcImg srcContent base sizes variants st).2.2.fs q =
        fsLookup st.fs q := by
  intro sizes
  induction sizes with
  | nil =>
    intro variants st _
    rfl
  | cons s rest ih =>
    intro variants st hq
    obtain ⟨sizeName, dims⟩ := s
    unfold thumbSizeLoop
    dsimp only
    by_cases h2 : sizeName ∈ f.failingVariants
    · rw [if_pos h2]
    · rw [if_neg h2]
      by_cases h1 : sizeName = "original"
      · rw [if_pos h1]
        rw [ih _ _ (fun x hx => hq x (List.mem_cons_of_mem _ hx))]
        exact fsLookup_write_ne _ _
          (hq (sizeName, dims) (List.mem_cons_self _ _))
      · rw [if_neg h1]
        rw [ih _ _ (fun x hx => hq x (List.mem_cons_of_mem _ hx))]
        exact fsLookup_write_ne _ _
          (hq (sizeName, dims) (List.mem_cons_self _ _))

theorem thumbSizeLoop_variants_sub (f : Faults) (srcImg : Img)
    (srcContent : Content) (base : String) :
    ∀ (sizes : List (String × Option (Nat × Nat)))
      (variants : List (String × String)) (st : St) (kv : String × String),
      kv ∈ (thumbSizeLoop f srcImg srcContent base sizes variants st).2.1 →
      kv ∈ variants ∨ ∃ s ∈ sizes, kv.2 = thumbnail_variant_filename base s.1 := by
  intro sizes
  induction sizes with
  | nil =>
    intro variants st kv h
    exact Or.inl h
  | cons s rest ih =>
    intro variants st kv h
    obtain ⟨sizeName, dims⟩ := s
    unfold thumbSizeLoop at h
    dsimp only at h
    by_cases h2 : sizeName ∈ f.failingVariants
    · rw [if_pos h2] at h
      exact Or.inl h
    · rw [if_neg h2] at h
      have hrec : kv ∈ variants ++ [(sizeName, thumbnail_variant_filename base sizeName)] ∨
          ∃ s ∈ rest, kv.2 = thumbnail_variant_filename base s.1 := by
        by_cases h1 : sizeName = "original"
        · rw [if_pos h1] at h
          exact ih _ _ _ h
        · rw [if_neg h1] at h
          exact ih _ _ _ h
      rcases hrec with h3 | ⟨s2, hs2, he⟩
      · rcases List.mem_append.mp h3 with h4 | h4
        · exact Or.inl h4
        · have h5 : kv = (sizeName, thumbnail_variant_filename base sizeName) :=
            by simpa using h4
          exact Or.inr ⟨(sizeName, dims), List.mem_cons_self _ _, by rw [h5]⟩
      · exact Or.inr ⟨s2, List.mem_cons_of_mem _ hs2, he⟩

theorem create_thumbnail_variants_lookup_preserved (f : Faults)
    (base thumbnailPath q : String) (st : St)
    (hq : ∀ n ∈ PHOTO_VARIANT_NAMES,
      q ≠ osJoin UPLOAD_DIR (thumbnail_variant_filename base n)) :
    fsLookup (create_thumbnail_variants f thumbnailPath base st).2.fs q =
      fsLookup st.fs q := by
  have hsz : ∀ s ∈ IMAGE_SIZES,
      q ≠ osJoin UPLOAD_DIR (thumbnail_variant_filename base s.1) :=
    fun s hs => hq s.1 (sizes_name_mem s hs)
  unfold create_thumbnail_variants
  cases hsrc : fsLookup st.fs thumbnailPath with
  | none => rfl
  | some src =>
    dsimp only
    rcases hloop : thumbSizeLoop f (contentImg src) src base IMAGE_SIZES [] st
      with ⟨res, variants, st2⟩
    have hpres : fsLookup st2.fs q = fsLookup st.fs q := by
      have hp := thumbSizeLoop_lookup_preserved f (contentImg src) src base q
        IMAGE_SIZES [] st hsz
      rw [hloop] at hp
      exact hp
    cases res with
    | ok u =>
      exact hpres
    | error msg =>
      dsimp only
      have hvars : ∀ kv ∈ variants, q ≠ osJoin UPLOAD_DIR kv.2 := by
        intro kv hkv
        have hsub := thumbSizeLoop_variants_sub f (contentImg src) src base
          IMAGE_SIZES [] st kv (by rw [hloop]; exact hkv)
        rcases hsub with h4 | ⟨s2, hs2, he⟩
        · simp at h4
        · rw [he]
          exact hsz s2 hs2
      rw [cleanupVariants_lookup_preserved q variants st2 hvars]
      exact hpres

theorem create_thumbnail_variants_ok_names (f : Faults)
    (base thumbnailPath : String) (st : St)
    (variants : List (String × String)) (st1 : St)
    (h : create_thumbnail_variants f thumbnailPath base st =
      (.ok variants, st1)) :
    ∀ kv ∈ variants, ∃ n ∈ PHOTO_VARIANT_NAMES,
      kv.2 = thumbnail_variant_filename base n := by
  intro kv hkv
  unfold create_thumbnail_variants at h
  cases hsrc : fsLookup st.fs thumbnailPath with
  | none =>
    rw [hsrc] at h
    simp at h
  | some src =>
    rw [hsrc] at h
    dsimp only at h
    rcases hloop : thumbSizeLoop f (contentImg src) src base IMAGE_SIZES [] st
      with ⟨res, vs, st2⟩
    try rw [hloop] at h
    cases res with
    | error msg =>
      simp at h
    | ok u =>
      have hvs : vs = variants := by
        have h2 := congrArg Prod.fst h
        simpa using h2
      have hsub := thumbSizeLoop_variants_sub f (contentImg src) src base
        IMAGE_SIZES [] st kv (by rw [hloop, hvs]; exact hkv)
      rcases hsub with h4 | ⟨s2, hs2, he⟩
      · simp at h4
      · exact ⟨s2.1, sizes_name_mem s2 hs2, he⟩

theorem create_video_thumbnail_variants_lookup_preserved (f : Faults)
    (videoPath base q : String) (st : St)
    (hq1 : q ≠ osJoin UPLOAD_DIR (temp_thumbnail_filename base))
    (hq2 : ∀ n ∈ PHOTO_VARIANT_NAMES,
      q ≠ osJoin UPLOAD_DIR (thumbnail_variant_filename base n)) :
    fsLookup (create_video_thumbnail_variants f videoPath base st).2.fs q =
      fsLookup st.fs q := by
  unfold create_video_thumbnail_variants
  by_cases h1 : f.videoOpenFails = true
  · rw [if_pos h1]
  · rw [if_neg h1]
    by_cases h2 : f.videoFrames.length = 0
    · rw [if_pos h2]
    · rw [if_neg h2]
      by_cases h3 : f.frameReadFails = true
      · rw [if_pos h3]
      · rw [if_neg h3]
        cases hget : f.videoFrames.get? (middle_frame f.videoFrames.length) with
        | none => rfl
        | some frameImg =>
          dsimp only
          by_cases h4 : f.tempThumbSaveFails = true
          · rw [if_pos h4]
          · rw [if_neg h4]
            rcases hctv : create_thumbnail_variants f
              (osJoin UPLOAD_DIR (temp_thumbnail_filename base)) base
              (stWrite st (osJoin UPLOAD_DIR (temp_thumbnail_filename base))
                (Content.encoded frameImg "JPEG" 90)) with ⟨res, st2⟩
            have hpres : fsLookup st2.fs q = fsLookup st.fs q := by
              have hp := create_thumbnail_variants_lookup_preserved f base
                (osJoin UPLOAD_DIR (temp_thumbnail_filename base)) q
                (stWrite st (osJoin UPLOAD_DIR (temp_thumbnail_filename base))
                  (Content.encoded frameImg "JPEG" 90)) hq2
              rw [hctv] at hp
              exact hp.trans (fsLookup_write_ne _ _ hq1)
            cases res with
            | ok variants =>
              dsimp only
              rw [fsLookup_stRemoveIfExists_ne _ hq1]
              exact hpres
            | error e =>
              dsimp only
              rw [fsLookup_stRemoveIfExists_ne _ hq1]
              exact hpres

theorem create_video_thumbnail_variants_tempthumb_none (f : Faults)
    (videoPath base : String) (st : St)
    (h0 : fsLookup st.fs (osJoin UPLOAD_DIR (temp_thumbnail_filename base)) =
      none) :
    fsLookup (create_video_thumbnail_variants f videoPath base st).2.fs
      (osJoin UPLOAD_DIR (temp_thumbnail_filename base)) = none := by
  unfold create_video_thumbnail_variants
  by_cases h1 : f.videoOpenFails = true
  · rw [if_pos h1]
    exact h0
  · rw [if_neg h1]
    by_cases h2 : f.videoFrames.length = 0
    · rw [if_pos h2]
      exact h0
    · rw [if_neg h2]
      by_cases h3 : f.frameReadFails = true
      · rw [if_pos h3]
        exact h0
      · rw [if_neg h3]
        cases hget : f.videoFrames.get? (middle_frame f.videoFrames.length) with
        | none => exact h0
        | some frameImg =>
          dsimp only
          by_cases h4 : f.tempThumbSaveFails = true
          · rw [if_pos h4]
            exact h0
          · rw [if_neg h4]
            rcases hctv : create_thumbnail_variants f
              (osJoin UPLOAD_DIR (temp_thumbnail_filename base)) base
              (stWrite st (osJoin UPLOAD_DIR (temp_thumbnail_filename base))
                (Content.encoded frameImg "JPEG" 90)) with ⟨res, st2⟩
            cases res with
            | ok variants =>
              exact fsLookup_stRemoveIfExists_self _ _
            | error e =>
              exact fsLookup_stRemoveIfExists_self _ _

theorem create_video_thumbnail_variants_ok_names (f : Faults)
    (videoPath base : String) (st : St) (variants : List (String × String))
    (st1 : St)
    (h : create_video_thumbnail_variants f videoPath base st =
      (.ok variants, st1)) :
    ∀ kv ∈ variants, ∃ n ∈ PHOTO_VARIANT_NAMES,
      kv.2 = thumbnail_variant_filename base n := by
  intro kv hkv
  unfold create_video_thumbnail_variants at h
  by_cases h1 : f.videoOpenFails = true
  · rw [if_pos h1] at h
    simp at h
  · rw [if_neg h1] at h
    by_cases h2 : f.videoFrames.length = 0
    · rw [if_pos h2] at h
      simp at h
    · rw [if_neg h2] at h
      by_cases h3 : f.frameReadFails = true
      · rw [if_pos h3] at h
        simp at h
      · rw [if_neg h3] at h
        cases hget : f.videoFrames.get? (middle_frame f.videoFrames.length) with
        | none =>
          try rw [hget] at h
          simp at h
        | some frameImg =>
          try rw [hget] at h
          dsimp only at h
          by_cases h4 : f.tempThumbSaveFails = true
          · rw [if_pos h4] at h
            simp at h
          · rw [if_neg h4] at h
            rcases hctv : create_thumbnail_variants f
              (osJoin UPLOAD_DIR (temp_thumbnail_filename base)) base
              (stWrite st (osJoin UPLOAD_DIR (temp_thumbnail_filename base))
                (Content.encoded frameImg "JPEG" 90)) with ⟨res, st2⟩
            try rw [hctv] at h
            cases res with
            | error e =>
              simp at h
            | ok vs =>
              have hvs : vs = variants := by
                have h5 := congrArg Prod.fst h
                simpa using h5
              exact create_thumbnail_variants_ok_names f base _ _ vs st2 hctv
                kv (by rw [hvs]; exact hkv)

set_option maxHeartbeats 1000000 in
/-- Claim C9: the intermediate temporary files of an upload — the
pre-processing temp file and the extracted-frame temp JPEG — are never
present in the upload directory when the handler returns, for both media
kinds, on the success path and on every failure path (the video temp file is
consumed by the rename into the stored video filename). -/
theorem temp_files_never_remain (f : Faults) (mt : MediaType)
    (base ext : String) (content : Content) (st : St) (hext : extOK ext)
    (hTf : fsLookup st.fs (osJoin UPLOAD_DIR (temp_filename base ext)) = none)
    (hBf : fsLookup st.fs
      (osJoin UPLOAD_DIR (temp_thumbnail_filename base)) = none) :
    fsLookup (upload_media f mt base ext content st).2.fs
      (osJoin UPLOAD_DIR (temp_filename base ext)) = none ∧
    fsLookup (upload_media f mt base ext content st).2.fs
      (osJoin UPLOAD_DIR (temp_thumbnail_filename base)) = none := by
  have aTPTTB : osJoin UPLOAD_DIR (temp_filename base ext) ≠
      osJoin UPLOAD_DIR (temp_thumbnail_filename base) :=
    osJoin_ne (temp_ne_tempthumb base ext hext)
  have aTPPV : osJoin UPLOAD_DIR (temp_filename base ext) ≠
      osJoin UPLOAD_DIR (video_filename base ext) :=
    osJoin_ne (fun he => video_ne_temp base ext he.symm)
  have aTTBPV : osJoin UPLOAD_DIR (temp_thumbnail_filename base) ≠
      osJoin UPLOAD_DIR (video_filename base ext) :=
    osJoin_ne (fun he => video_ne_tempthumb base ext hext he.symm)
  have aTPvar : ∀ n ∈ PHOTO_VARIANT_NAMES,
      osJoin UPLOAD_DIR (temp_filename base ext) ≠
        osJoin UPLOAD_DIR (variant_filename base n ext) := by
    intro n hn
    simp only [PHOTO_VARIANT_NAMES, List.mem_cons, List.not_mem_nil,
      or_false] at hn
    rcases hn with rfl | rfl | rfl | rfl
    · exact osJoin_ne (fun he => vf_ne_temp base ext "original" (by decide)
        he.symm)
    · exact osJoin_ne (fun he => vf_ne_temp base ext "thumb" (by decide)
        he.symm)
    · exact osJoin_ne (fun he => vf_ne_temp base ext "medium" (by decide)
        he.symm)
    · exact osJoin_ne (fun he => vf_ne_temp base ext "large" (by decide)
        he.symm)
  have aTTBvar : ∀ n ∈ PHOTO_VARIANT_NAMES,
      osJoin UPLOAD_DIR (temp_thumbnail_filename base) ≠
        osJoin UPLOAD_DIR (variant_filename base n ext) := by
    intro n hn
    simp only [PHOTO_VARIANT_NAMES, List.mem_cons, List.not_mem_nil,
      or_false] at hn
    rcases hn with rfl | rfl | rfl | rfl
    · exact osJoin_ne (fun he => vf_ne_tempthumb base ext "original"
        (by decide) he.symm)
    · exact osJoin_ne (fun he => vf_ne_tempthumb base ext "thumb"
        (by decide) he.symm)
    · exact osJoin_ne (fun he => vf_ne_tempthumb base ext "medium"
        (by decide) he.symm)
    · exact osJoin_ne (fun he => vf_ne_tempthumb base ext "large"
        (by decide) he.symm)
  have aTPtvf : ∀ n ∈ PHOTO_VARIANT_NAMES,
      osJoin UPLOAD_DIR (temp_filename base ext) ≠
        osJoin UPLOAD_DIR (thumbnail_variant_filename base n) := by
    intro n hn
    simp only [PHOTO_VARIANT_NAMES, List.mem_cons, List.not_mem_nil,
      or_false] at hn
    rcases hn with rfl | rfl | rfl | rfl
    · exact osJoin_ne (temp_ne_tvf base ext "original" (by decide))
    · exact osJoin_ne (temp_ne_tvf base ext "thumb" (by decide))
    · exact osJoin_ne (temp_ne_tvf base ext "medium" (by decide))
    · exact osJoin_ne (temp_ne_tvf base ext "large" (by decide))
  have aTTBtvf : ∀ n ∈ PHOTO_VARIANT_NAMES,
      osJoin UPLOAD_DIR (temp_thumbnail_filename base) ≠
        osJoin UPLOAD_DIR (thumbnail_variant_filename base n) := by
    intro n hn
    simp only [PHOTO_VARIANT_NAMES, List.mem_cons, List.not_mem_nil,
      or_false] at hn
    rcases hn with rfl | rfl | rfl | rfl
    · exact osJoin_ne (fun he => tvf_ne_tempthumb base "original"
        (by decide) he.symm)
    · exact osJoin_ne (fun he => tvf_ne_tempthumb base "thumb"
        (by decide) he.symm)
    · exact osJoin_ne (fun he => tvf_ne_tempthumb base "medium"
        (by decide) he.symm)
    · exact osJoin_ne (fun he => tvf_ne_tempthumb base "large"
        (by decide) he.symm)
  cases mt with
  | photo =>
    unfold upload_media
    by_cases hs : f.saveTempFails = true
    · rw [if_pos hs]
      exact ⟨hTf, hBf⟩
    · rw [if_neg hs]
      dsimp only
      rcases hciv : create_image_variants f
        (osJoin UPLOAD_DIR (temp_filename base ext)) base ext
        (stWrite st (osJoin UPLOAD_DIR (temp_filename base ext)) content)
        with ⟨res, st1⟩
      have hB1 : fsLookup st1.fs
          (osJoin UPLOAD_DIR (temp_thumbnail_filename base)) = none := by
        have hp := create_image_variants_lookup_preserved f base ext
          (osJoin UPLOAD_DIR (temp_filename base ext))
          (osJoin UPLOAD_DIR (temp_thumbnail_filename base))
          (stWrite st (osJoin UPLOAD_DIR (temp_filename base ext)) content)
          aTTBvar
        rw [hciv] at hp
        rw [hp]
        dsimp only [stWrite]
        rw [fsLookup_write_ne _ _ (fun he => aTPTTB he.symm)]
        exact hBf
      cases res with
      | ok variants =>
        dsimp only
        by_cases hdb : f.dbFails = true
        · rw [if_pos hdb]
          dsimp only
          have hvnames := create_image_variants_ok_names f base ext
            (osJoin UPLOAD_DIR (temp_filename base ext))
            (stWrite st (osJoin UPLOAD_DIR (temp_filename base ext)) content)
            variants st1 hciv
          have hTPvars : ∀ kv ∈ variants,
              osJoin UPLOAD_DIR (temp_filename base ext) ≠
                osJoin UPLOAD_DIR kv.2 := by
            intro kv hkv
            obtain ⟨n, hn, he⟩ := hvnames kv hkv
            rw [he]
            exact aTPvar n hn
          have hTTBvars : ∀ kv ∈ variants,
              osJoin UPLOAD_DIR (temp_thumbnail_filename base) ≠
                osJoin UPLOAD_DIR kv.2 := by
            intro kv hkv
            obtain ⟨n, hn, he⟩ := hvnames kv hkv
            rw [he]
            exact aTTBvar n hn
          constructor
          · rw [cleanupVariants_lookup_preserved _ _ _ hTPvars]
            exact fsLookup_stRemoveIfExists_self _ _
          · rw [cleanupVariants_lookup_preserved _ _ _ hTTBvars,
              fsLookup_stRemoveIfExists_ne _ aTPTTB.symm,
              fsLookup_stRemoveIfExists_ne _ aTPTTB.symm]
            exact hB1
        · rw [if_neg hdb]
          constructor
          · exact fsLookup_stRemoveIfExists_self _ _
          · rw [fsLookup_stRemoveIfExists_ne _ aTPTTB.symm]
            exact hB1
      | error e =>
        dsimp only
        constructor
        · exact fsLookup_stRemoveIfExists_self _ _
        · rw [fsLookup_stRemoveIfExists_ne _ aTPTTB.symm]
          exact hB1
  | video =>
    unfold upload_media
    by_cases hs : f.saveTempFails = true
    · rw [if_pos hs]
      exact ⟨hTf, hBf⟩
    · rw [if_neg hs]
      dsimp only
      rcases hcv : create_video_thumbnail_variants f
        (osJoin UPLOAD_DIR (video_filename base ext)) base
        (stRename (stWrite st (osJoin UPLOAD_DIR (temp_filename base ext))
          content) (osJoin UPLOAD_DIR (temp_filename base ext))
          (osJoin UPLOAD_DIR (video_filename base ext))) with ⟨res, st2⟩
      have hrenfs : (stRename (stWrite st
          (osJoin UPLOAD_DIR (temp_filename base ext)) content)
          (osJoin UPLOAD_DIR (temp_filename base ext))
          (osJoin UPLOAD_DIR (video_filename base ext))).fs =
          fsWrite (fsErase (fsWrite st.fs
            (osJoin UPLOAD_DIR (temp_filename base ext)) content)
            (osJoin UPLOAD_DIR (temp_filename base ext)))
            (osJoin UPLOAD_DIR (video_filename base ext)) content := by
        simp [stRename, stWrite]
      have hT2 : fsLookup st2.fs
          (osJoin UPLOAD_DIR (temp_filename base ext)) = none := by
        have hp := create_video_thumbnail_variants_lookup_preserved f
          (osJoin UPLOAD_DIR (video_filename base ext)) base
          (osJoin UPLOAD_DIR (temp_filename base ext))
          (stRename (stWrite st (osJoin UPLOAD_DIR (temp_filename base ext))
            content) (osJoin UPLOAD_DIR (temp_filename base ext))
            (osJoin UPLOAD_DIR (video_filename base ext))) aTPTTB aTPtvf
        rw [hcv] at hp
        rw [hp, hrenfs, fsLookup_write_ne _ _ aTPPV]
        exact fsLookup_erase_self _ _
      have hB2 : fsLookup st2.fs
          (osJoin UPLOAD_DIR (temp_thumbnail_filename base)) = none := by
        have h0 : fsLookup (stRename (stWrite st
            (osJoin UPLOAD_DIR (temp_filename base ext)) content)
            (osJoin UPLOAD_DIR (temp_filename base ext))
            (osJoin UPLOAD_DIR (video_filename base ext))).fs
            (osJoin UPLOAD_DIR (temp_thumbnail_filename base)) = none := by
          rw [hrenfs, fsLookup_write_ne _ _ aTTBPV,
            fsLookup_erase_ne _ aTPTTB.symm,
            fsLookup_write_ne _ _ aTPTTB.symm]
          exact hBf
        have hp := create_video_thumbnail_variants_tempthumb_none f
          (osJoin UPLOAD_DIR (video_filename base ext)) base
          (stRename (stWrite st (osJoin UPLOAD_DIR (temp_filename base ext))
            content) (osJoin UPLOAD_DIR (temp_filename base ext))
            (osJoin UPLOAD_DIR (video_filename base ext))) h0
        rw [hcv] at hp
        exact hp
      cases res with
      | ok variants =>
        dsimp only
        by_cases hdb : f.dbFails = true
        · rw [if_pos hdb]
          dsimp only
          have hvnames := create_video_thumbnail_variants_ok_names f
            (osJoin UPLOAD_DIR (video_filename base ext)) base _ variants st2
            hcv
          have hTPvars : ∀ kv ∈ variants,
              osJoin UPLOAD_DIR (temp_filename base ext) ≠
                osJoin UPLOAD_DIR kv.2 := by
            intro kv hkv
            obtain ⟨n, hn, he⟩ := hvnames kv hkv
            rw [he]
            exact aTPtvf n hn
          have hTTBvars : ∀ kv ∈ variants,
              osJoin UPLOAD_DIR (temp_thumbnail_filename base) ≠
                osJoin UPLOAD_DIR kv.2 := by
            intro kv hkv
            obtain ⟨n, hn, he⟩ := hvnames kv hkv
            rw [he]
            exact aTTBtvf n hn
          constructor
          · rw [cleanupVariants_lookup_preserved _ _ _ hTPvars]
            exact fsLookup_stRemoveIfExists_self _ _
          · rw [cleanupVariants_lookup_preserved _ _ _ hTTBvars,
              fsLookup_stRemoveIfExists_ne _ aTPTTB.symm]
            exact hB2
        · rw [if_neg hdb]
          exact ⟨hT2, hB2⟩
      | error e =>
        dsimp only
        constructor
        · rw [fsLookup_stRemoveIfExists_ne _ aTPPV]
          exact fsLookup_stRemoveIfExists_self _ _
        · rw [fsLookup_stRemoveIfExists_ne _ aTTBPV,
            fsLookup_stRemoveIfExists_ne _ aTPTTB.symm]
          exact hB2

/-- Witness for C9 at a concrete upload with a failing database step. -/
theorem temp_files_never_remain_witness :
    fsLookup (upload_media { noFaults with dbFails := true } .video "b" ".mp4"
        demoContent emptySt).2.fs
      (osJoin UPLOAD_DIR (temp_filename "b" ".mp4")) = none ∧
    fsLookup (upload_media { noFaults with dbFails := true } .video "b" ".mp4"
        demoContent emptySt).2.fs
      (osJoin UPLOAD_DIR (temp_thumbnail_filename "b")) = none :=
  temp_files_never_remain { noFaults with dbFails := true } .video "b" ".mp4"
    demoContent emptySt (Or.inr (by decide)) (by decide) (by decide)

end MediaPipeline
